import Mathlib

/-!
Verification of the AI timetable synthesis engine (`aiTimetableService`).

Shallow embedding conventions:
* JavaScript string ids are `String`; strict equality `===` on ids is `==`.
* Clock times ("HH:mm" strings parsed by `moment`) are minutes since
  midnight (`Nat`); `moment(a).isBefore(b)` on such times is `a < b`.
* JavaScript floating-point arithmetic on fitness values is modelled
  exactly with `ℚ` (the spec describes real-valued penalties).
* `Math.random()` draws are explicit choice arguments (oracles).
* JavaScript runtime faults (`TypeError` on `undefined` field access)
  are `Option`/`Except` failure values.
-/

namespace AITimetable

/-- A gene / slot of an individual: one course's assignment. -/
structure Slot where
  courseId : String
  teacherId : String
  roomId : String
  dayOfWeek : Nat
  startTime : Nat
  endTime : Nat
  creditHours : Nat
deriving DecidableEq, Repr, Inhabited

structure Teacher where
  id : String
  maxWorkload : ℚ
deriving DecidableEq, Repr

structure Course where
  id : String
  teacherId : String
  creditHours : Nat
  maxStudents : Nat
deriving DecidableEq, Repr

structure Room where
  id : String
  capacity : Nat
  roomType : String
deriving DecidableEq, Repr

structure Student where
  id : String
deriving DecidableEq, Repr

/-- A committed entry of the existing timetable (only the fields the
engine reads). -/
structure TEntry where
  teacherId : String
  dayOfWeek : Nat
  startTime : Nat
  endTime : Nat
deriving DecidableEq, Repr

/-- A recorded conflict, with the payload the source attaches. -/
inductive Conflict where
  | teacherConflict (slot1 slot2 : Slot)
  | roomConflict (slot1 slot2 : Slot)
  | existingConflict (slot : Slot) (existing : TEntry)
  | workloadExceeded (teacherId : String) (current max : ℚ)
  | capacityExceeded (slot : Slot) (course : Course) (room : Room)
deriving DecidableEq, Repr

structure Individual where
  slots : List Slot
  conflicts : List Conflict
  fitness : ℚ
deriving DecidableEq, Repr

instance : Inhabited Individual := ⟨⟨[], [], 0⟩⟩

/-- The read-only snapshot one synthesis run works on. -/
structure Snapshot where
  students : List Student
  teachers : List Teacher
  courses : List Course
  rooms : List Room
  existingTimetables : List TEntry
deriving Repr

/-- `timeOverlap(start1, end1, start2, end2)` from the source:
`time1Start.isBefore(time2End) && time2Start.isBefore(time1End)`. -/
def timeOverlap (s1 e1 s2 e2 : Nat) : Bool :=
  decide (s1 < e2) && decide (s2 < e1)

/-- The teacher-conflict test between two slots of an individual. -/
def teacherClash (a b : Slot) : Bool :=
  a.teacherId == b.teacherId && a.dayOfWeek == b.dayOfWeek &&
    timeOverlap a.startTime a.endTime b.startTime b.endTime

/-- The room-conflict test between two slots of an individual. -/
def roomClash (a b : Slot) : Bool :=
  a.roomId == b.roomId && a.dayOfWeek == b.dayOfWeek &&
    timeOverlap a.startTime a.endTime b.startTime b.endTime

/-- The test of a slot against a committed existing entry. -/
def existClash (s : Slot) (e : TEntry) : Bool :=
  s.teacherId == e.teacherId && s.dayOfWeek == e.dayOfWeek &&
    timeOverlap s.startTime s.endTime e.startTime e.endTime

/-- Duration of a slot in (fractional) hours:
`moment(endTime).diff(moment(startTime), 'hours', true)`. -/
def durH (s : Slot) : ℚ :=
  (((s.endTime : ℚ)) - ((s.startTime : ℚ))) / 60

/-- The inner `j` loop of `calculateFitness` for a fixed slot `s`:
teacher check then room check against each later slot, threading
`(fitness, conflicts)`. -/
def pairFold (s : Slot) : List Slot → (ℚ × List Conflict) → (ℚ × List Conflict)
  | [], st => st
  | t :: rest, st =>
    let st1 := if teacherClash s t then
        (st.1 - 3/10, st.2 ++ [Conflict.teacherConflict s t]) else st
    let st2 := if roomClash s t then
        (st1.1 - 4/10, st1.2 ++ [Conflict.roomConflict s t]) else st1
    pairFold s rest st2

/-- The existing-timetable loop of `calculateFitness` for a fixed slot. -/
def existFold (s : Slot) : List TEntry → (ℚ × List Conflict) → (ℚ × List Conflict)
  | [], st => st
  | e :: rest, st =>
    let st1 := if existClash s e then
        (st.1 - 2/10, st.2 ++ [Conflict.existingConflict s e]) else st
    existFold s rest st1

/-- The outer `i` loop of `calculateFitness`: for each slot, every later
slot (pair checks) and then every existing entry. -/
def conflictFold (ex : List TEntry) : List Slot → (ℚ × List Conflict) → (ℚ × List Conflict)
  | [], st => st
  | s :: rest, st => conflictFold ex rest (existFold s ex (pairFold s rest st))

/-- JavaScript object keys in insertion order: a key is appended the
first time it is assigned. -/
def insertKey (ks : List String) (k : String) : List String :=
  if k ∈ ks then ks else ks ++ [k]

/-- The key set (in order) of the `workloads` object after the
initialization loop `for (teacher of teachers) workloads[teacher.id] = 0`. -/
def objKeys (ts : List Teacher) : List String :=
  ts.foldl (fun ks t => insertKey ks t.id) []

/-- Add `d` to the entry of key `tid` of an association list (the key is
known to be present when this is called). -/
def bump (ws : List (String × ℚ)) (tid : String) (d : ℚ) : List (String × ℚ) :=
  ws.map (fun kv => if kv.1 == tid then (kv.1, kv.2 + d) else kv)

/-- The slot loop of `calculateTeacherWorkloads`: a slot adds its duration
only when its teacher id is a key (`workloads[slot.teacherId] !== undefined`). -/
def applySlots : List Slot → List (String × ℚ) → List (String × ℚ)
  | [], ws => ws
  | s :: rest, ws =>
    applySlots rest
      (if (ws.lookup s.teacherId).isSome then bump ws s.teacherId (durH s) else ws)

/-- `calculateTeacherWorkloads(slots, teachers)` as the association list
of the resulting JavaScript object, in `Object.entries` order. -/
def calculateTeacherWorkloads (slots : List Slot) (ts : List Teacher) : List (String × ℚ) :=
  applySlots slots ((objKeys ts).map (fun k => (k, 0)))

/-- The workload loop of `calculateFitness` over `Object.entries(teacherWorkloads)`. -/
def workFold (ts : List Teacher) : List (String × ℚ) → (ℚ × List Conflict) → (ℚ × List Conflict)
  | [], st => st
  | (tid, w) :: rest, st =>
    let st1 :=
      match ts.find? (fun t => t.id == tid) with
      | some teacher =>
        if teacher.maxWorkload < w then
          (st.1 - 1/10 * (w - teacher.maxWorkload),
           st.2 ++ [Conflict.workloadExceeded tid w teacher.maxWorkload])
        else st
      | none => st
    workFold ts rest st1

/-- The truthiness test `course.maxStudents && course.maxStudents > room.capacity`
(a `null`/absent bound is modelled as `0`, which is equally falsy). -/
def capClash (course : Course) (room : Room) : Bool :=
  decide (course.maxStudents ≠ 0) && decide (room.capacity < course.maxStudents)

/-- The room-capacity loop of `calculateFitness`. -/
def capFold (cs : List Course) (rs : List Room) : List Slot → (ℚ × List Conflict) → (ℚ × List Conflict)
  | [], st => st
  | s :: rest, st =>
    let st1 :=
      match cs.find? (fun c => c.id == s.courseId), rs.find? (fun r => r.id == s.roomId) with
      | some course, some room =>
        if capClash course room then
          (st.1 - 1/10, st.2 ++ [Conflict.capacityExceeded s course room])
        else st
      | _, _ => st
    capFold cs rs rest st1

/-- `calculateFitness(individual, snapshot)`: the returned fitness value
together with the conflict list stored on the individual. -/
def calculateFitness (slots : List Slot) (ts : List Teacher) (cs : List Course)
    (rs : List Room) (ex : List TEntry) : ℚ × List Conflict :=
  let st := conflictFold ex slots (1, [])
  let st := workFold ts (calculateTeacherWorkloads slots ts) st
  let st := capFold cs rs slots st
  (max 0 st.1, st.2)

/-- The fixed weekday catalog `[1, 2, 3, 4, 5]`. -/
def days : List Nat := [1, 2, 3, 4, 5]

/-- The fixed period catalog `09:00-10:30, 10:45-12:15, 13:00-14:30,
14:45-16:15, 16:30-18:00`, as minutes since midnight. -/
def timeSlots : List (Nat × Nat) :=
  [(540, 630), (645, 735), (780, 870), (885, 975), (990, 1080)]

/-- One `Math.floor(Math.random() * length)` draw triple used by
`generateRandomSlot` (indices are reduced modulo the list lengths). -/
structure SlotChoice where
  dayIdx : Nat
  timeIdx : Nat
  roomIdx : Nat
deriving Repr

/-- `generateRandomSlot(course, teacher, rooms)`: `none` models the
`TypeError` thrown on `room.id` when the room list is empty. -/
def generateRandomSlot (course : Course) (teacher : Teacher) (rooms : List Room)
    (c : SlotChoice) : Option Slot :=
  match rooms.get? (c.roomIdx % rooms.length) with
  | none => none
  | some room =>
    let day := (days.get? (c.dayIdx % days.length)).getD 1
    let ts := (timeSlots.get? (c.timeIdx % timeSlots.length)).getD (540, 630)
    some { courseId := course.id, teacherId := teacher.id, roomId := room.id,
           dayOfWeek := day, startTime := ts.1, endTime := ts.2,
           creditHours := course.creditHours }

/-- The per-course loop of `initializePopulation`: a course whose teacher
is not found is skipped (`continue`); otherwise a random slot is pushed. -/
def buildSlots (ts : List Teacher) (rs : List Room) (ch : Nat → SlotChoice) :
    List Course → Nat → Option (List Slot)
  | [], _ => some []
  | c :: cs, k =>
    match ts.find? (fun t => t.id == c.teacherId) with
    | none => buildSlots ts rs ch cs (k + 1)
    | some t =>
      match generateRandomSlot c t rs (ch k) with
      | none => none
      | some s =>
        match buildSlots ts rs ch cs (k + 1) with
        | none => none
        | some rest => some (s :: rest)

/-- The individual-construction loop of `initializePopulation`. -/
def initLoop (snap : Snapshot) (ch : Nat → Nat → SlotChoice) : Nat → Nat → Option (List Individual)
  | _, 0 => some []
  | i, Nat.succ n =>
    match buildSlots snap.teachers snap.rooms (ch i) snap.courses 0 with
    | none => none
    | some sl =>
      match initLoop snap ch (i + 1) n with
      | none => none
      | some rest => some ({ slots := sl, conflicts := [], fitness := 0 } :: rest)

/-- `initializePopulation(size, snapshot)` with explicit random choices. -/
def initializePopulation (size : Nat) (snap : Snapshot) (ch : Nat → Nat → SlotChoice) :
    Option (List Individual) :=
  initLoop snap ch 0 size

/-- `tournamentSelection(population)`: picks the given random indices and
keeps the strictly fittest, first-encountered winning ties. -/
def tournamentSelection (pop : List Individual) (idxs : List Nat) : Individual :=
  match idxs.map (fun ix => (pop.get? (ix % pop.length)).getD default) with
  | [] => default
  | x :: xs => xs.foldl (fun best cur => if best.fitness < cur.fitness then cur else best) x

/-- The index loop of `crossover`: while both parents have genes the
random bit picks one; afterwards the longer parent's genes are taken. -/
def crossSlots (pick : Nat → Bool) : Nat → List Slot → List Slot → List Slot
  | _, [], [] => []
  | i, a :: as, b :: bs => (if pick i then a else b) :: crossSlots pick (i + 1) as bs
  | i, a :: as, [] => a :: crossSlots pick (i + 1) as []
  | i, [], b :: bs => b :: crossSlots pick (i + 1) [] bs

/-- `crossover(parent1, parent2)` with the per-index random bits. -/
def crossover (p1 p2 : Individual) (pick : Nat → Bool) : Individual :=
  { slots := crossSlots pick 0 p1.slots p2.slots, conflicts := [], fitness := 0 }

/-- The gene loop of `mutate`. `ch i = some c` models `Math.random() <
mutationRate` firing for gene `i` with draw `c`; `none` at the whole call
models the `TypeError` thrown on `course.teacherId` when the course is
not found (the `if (course && teacher)` guard is evaluated only after
that access, so an unresolved teacher merely keeps the gene). -/
def mutateSlots (snap : Snapshot) (ch : Nat → Option SlotChoice) :
    List Slot → Nat → Option (List Slot)
  | [], _ => some []
  | s :: rest, k =>
    match ch k with
    | none => (mutateSlots snap ch rest (k + 1)).map (fun l => s :: l)
    | some c =>
      match snap.courses.find? (fun co => co.id == s.courseId) with
      | none => none
      | some course =>
        match snap.teachers.find? (fun t => t.id == course.teacherId) with
        | none => (mutateSlots snap ch rest (k + 1)).map (fun l => s :: l)
        | some teacher =>
          match generateRandomSlot course teacher snap.rooms c with
          | none => none
          | some s' => (mutateSlots snap ch rest (k + 1)).map (fun l => s' :: l)

/-- `mutate(individual, snapshot)`: the deep copy keeps the conflicts and
fitness fields; only selected genes are re-randomized. -/
def mutate (ind : Individual) (snap : Snapshot) (ch : Nat → Option SlotChoice) :
    Option Individual :=
  (mutateSlots snap ch ind.slots 0).map
    (fun sl => { slots := sl, conflicts := ind.conflicts, fitness := ind.fitness })

/-- `populationSize = 50` from `geneticAlgorithm`. -/
def populationSize : Nat := 50

/-- `generations = 100` from `geneticAlgorithm`. -/
def generations : Nat := 100

/-- The default convergence threshold `AI_CONFLICT_THRESHOLD || 0.8`. -/
def conflictThreshold : ℚ := 8/10

/-- `Math.floor(populationSize * 0.2)`, the elite count. -/
def eliteCount : Nat := (⌊(populationSize : ℚ) * (2/10)⌋).toNat

/-- One fitness evaluation: `{...individual, fitness}` after
`calculateFitness` stored the conflicts on the individual. -/
def evaluate (snap : Snapshot) (ind : Individual) : Individual :=
  let fc := calculateFitness ind.slots snap.teachers snap.courses snap.rooms
    snap.existingTimetables
  { slots := ind.slots, conflicts := fc.2, fitness := fc.1 }

/-- The comparator `(a, b) => b.fitness - a.fitness`: descending fitness. -/
def fitGE (a b : Individual) : Prop := b.fitness ≤ a.fitness

instance : DecidableRel fitGE := fun a b => inferInstanceAs (Decidable (b.fitness ≤ a.fitness))

instance : IsTotal Individual fitGE := ⟨fun a b => le_total b.fitness a.fitness⟩

instance : IsTrans Individual fitGE := ⟨fun _ _ _ h1 h2 => le_trans h2 h1⟩

/-- `population.sort((a, b) => b.fitness - a.fitness)`. -/
def sortPop (pop : List Individual) : List Individual := pop.insertionSort fitGE

/-- The next generation: the elites carried over unchanged plus the bred
offspring. -/
def nextPopulation (sorted off : List Individual) : List Individual :=
  sorted.take eliteCount ++ off

/-- One `Math.random` bundle for producing one offspring: two tournament
index draws, the crossover bits, and the mutation draws. -/
structure OffChoice where
  t1 : List Nat
  t2 : List Nat
  cross : Nat → Bool
  mutDraw : Nat → Option SlotChoice

/-- One iteration of the `while (newPopulation.length < populationSize)`
body: select two parents, cross them, mutate the offspring. -/
def makeChild (snap : Snapshot) (pop : List Individual) (c : OffChoice) : Option Individual :=
  mutate (crossover (tournamentSelection pop c.t1) (tournamentSelection pop c.t2) c.cross)
    snap c.mutDraw

/-- The breeding loop, producing the requested number of offspring. -/
def mkOffspring (snap : Snapshot) (pop : List Individual) (cs : Nat → OffChoice) :
    Nat → Option (List Individual)
  | 0 => some []
  | Nat.succ n =>
    match makeChild snap pop (cs n) with
    | none => none
    | some child =>
      match mkOffspring snap pop cs n with
      | none => none
      | some rest => some (child :: rest)

/-- The generational loop of `geneticAlgorithm`, fuelled by the generation
budget: evaluate, sort, stop on convergence, else breed and recurse. -/
def gaLoop (snap : Snapshot) (orc : Nat → Nat → OffChoice) :
    Nat → List Individual → Option (List Individual)
  | 0, pop => some pop
  | Nat.succ fuel, pop =>
    let sorted := sortPop (pop.map (evaluate snap))
    if conflictThreshold ≤ sorted.headI.fitness then some sorted
    else
      match mkOffspring snap sorted (orc fuel)
          (populationSize - (sorted.take eliteCount).length) with
      | none => none
      | some off => gaLoop snap orc fuel (nextPopulation sorted off)

/-- The number of generations the loop actually executes. -/
def gaGens (snap : Snapshot) (orc : Nat → Nat → OffChoice) :
    Nat → List Individual → Nat
  | 0, _ => 0
  | Nat.succ fuel, pop =>
    let sorted := sortPop (pop.map (evaluate snap))
    if conflictThreshold ≤ sorted.headI.fitness then 1
    else
      match mkOffspring snap sorted (orc fuel)
          (populationSize - (sorted.take eliteCount).length) with
      | none => 1
      | some off => 1 + gaGens snap orc fuel (nextPopulation sorted off)

/-- A gene joined with the full course/teacher/room records. -/
structure FormattedSlot where
  courseId : String
  teacherId : String
  roomId : String
  dayOfWeek : Nat
  startTime : Nat
  endTime : Nat
  course : Option Course
  teacher : Option Teacher
  room : Option Room
deriving DecidableEq, Repr

/-- A repair suggestion. -/
inductive Suggestion where
  | roomChange (slot : Slot) (suggestedRoom : Room) (reason : String)
  | timeChange (slot : Slot) (alternatives : List (Nat × Nat × Nat)) (reason : String)
deriving DecidableEq, Repr

/-- `findAlternativeTimes(slot, allSlots)`: scan the day-by-period catalog
in order and keep combinations with no same-teacher overlap among all
slots, returning the first three. -/
def findAlternativeTimes (slot : Slot) (allSlots : List Slot) : List (Nat × Nat × Nat) :=
  (days.flatMap (fun day =>
    timeSlots.filterMap (fun ts =>
      if allSlots.any (fun s =>
           s.teacherId == slot.teacherId && s.dayOfWeek == day &&
             timeOverlap s.startTime s.endTime ts.1 ts.2)
      then none
      else some (day, ts.1, ts.2)))).take 3

/-- `generateSuggestions(individual, data)`: the capacity pass over the
recorded conflicts, then the time-change pass. -/
def generateSuggestions (ind : Individual) (rooms : List Room) : List Suggestion :=
  (ind.conflicts.filterMap (fun c =>
    match c with
    | Conflict.capacityExceeded slot course _ =>
      match rooms.filter (fun r =>
          decide (course.maxStudents ≤ r.capacity) && r.roomType == "CLASSROOM") with
      | [] => none
      | r :: _ => some (Suggestion.roomChange slot r "Capacity exceeded")
    | _ => none)) ++
  (ind.conflicts.filterMap (fun c =>
    match c with
    | Conflict.teacherConflict s1 _ =>
      some (Suggestion.timeChange s1 (findAlternativeTimes s1 ind.slots)
        "Conflict with another class")
    | Conflict.roomConflict s1 _ =>
      some (Suggestion.timeChange s1 (findAlternativeTimes s1 ind.slots)
        "Conflict with another class")
    | _ => none))

/-- The returned timetable artifact. -/
structure Timetable where
  semester : Nat
  academicYear : String
  slots : List FormattedSlot
  conflicts : List Conflict
  suggestions : List Suggestion
  fitness : ℚ
deriving Repr

/-- `formatTimetable(individual, data)`. -/
def formatTimetable (ind : Individual) (snap : Snapshot) (semester : Nat)
    (academicYear : String) : Timetable :=
  { semester := semester
    academicYear := academicYear
    slots := ind.slots.map (fun s =>
      { courseId := s.courseId, teacherId := s.teacherId, roomId := s.roomId,
        dayOfWeek := s.dayOfWeek, startTime := s.startTime, endTime := s.endTime,
        course := snap.courses.find? (fun c => c.id == s.courseId),
        teacher := snap.teachers.find? (fun t => t.id == s.teacherId),
        room := snap.rooms.find? (fun r => r.id == s.roomId) })
    conflicts := ind.conflicts
    suggestions := generateSuggestions ind snap.rooms
    fitness := ind.fitness }

/-- `geneticAlgorithm(data)`: initialize, run the loop, format the best
(first) individual of the final population. -/
def geneticAlgorithm (snap : Snapshot) (semester : Nat) (academicYear : String)
    (ich : Nat → Nat → SlotChoice) (orc : Nat → Nat → OffChoice) : Option Timetable :=
  match initializePopulation populationSize snap ich with
  | none => none
  | some pop0 =>
    match gaLoop snap orc generations pop0 with
    | none => none
    | some finalPop => some (formatTimetable finalPop.headI snap semester academicYear)

/-- `validateInputs(students, teachers, courses, rooms)`: the four empty
checks, in source order. -/
def validateInputs (students : List Student) (ts : List Teacher) (cs : List Course)
    (rs : List Room) : Except String Unit :=
  if students.length = 0 then Except.error "No students found"
  else if ts.length = 0 then Except.error "No teachers found"
  else if cs.length = 0 then Except.error "No courses found"
  else if rs.length = 0 then Except.error "No rooms found"
  else Except.ok ()

/-- The outcome of one `generateTimetable` call: the returned or thrown
value, and the status recorded by `logAIOperation`. -/
structure GenOutcome where
  result : Except String Timetable
  logStatus : String
deriving Repr

/-- `generateTimetable(params)` after the snapshot has been fetched:
validation first, then the genetic algorithm; any thrown error is logged
with status FAILED, a normal return with status SUCCESS. -/
def generateTimetable (snap : Snapshot) (semester : Nat) (academicYear : String)
    (ich : Nat → Nat → SlotChoice) (orc : Nat → Nat → OffChoice) : GenOutcome :=
  match validateInputs snap.students snap.teachers snap.courses snap.rooms with
  | Except.error e => { result := Except.error e, logStatus := "FAILED" }
  | Except.ok _ =>
    match geneticAlgorithm snap semester academicYear ich orc with
    | none => { result := Except.error "TypeError", logStatus := "FAILED" }
    | some tt => { result := Except.ok tt, logStatus := "SUCCESS" }

/-! ## Spec-side characterizations -/

/-- All unordered pairs `(i, j)` with `i < j`, in loop order. -/
def allPairs {α : Type} : List α → List (α × α)
  | [] => []
  | x :: xs => xs.map (fun y => (x, y)) ++ allPairs xs

/-- Number of unordered slot pairs with the same teacher, same day and
overlapping times. -/
def numTeacherPairs (slots : List Slot) : Nat :=
  (allPairs slots).countP (fun p => teacherClash p.1 p.2)

/-- Number of unordered slot pairs with the same room, same day and
overlapping times. -/
def numRoomPairs (slots : List Slot) : Nat :=
  (allPairs slots).countP (fun p => roomClash p.1 p.2)

/-- Number of (slot, existing entry) combinations with the same teacher,
same day and overlapping times. -/
def numExistHits (slots : List Slot) (ex : List TEntry) : Nat :=
  (slots.map (fun s => ex.countP (existClash s))).sum

/-- Spec-side workload of one teacher id: the summed duration in hours of
that teacher's slots. -/
def teacherHours (slots : List Slot) (tid : String) : ℚ :=
  ((slots.filter (fun s => s.teacherId == tid)).map durH).sum

/-- Spec-side total workload penalty: `0.1` per overage hour of each
over-loaded teacher, uncapped. -/
def workloadPenalty (slots : List Slot) (ts : List Teacher) : ℚ :=
  ((objKeys ts).map (fun tid =>
    match ts.find? (fun t => t.id == tid) with
    | some teacher =>
      if teacher.maxWorkload < teacherHours slots tid then
        1/10 * (teacherHours slots tid - teacher.maxWorkload)
      else 0
    | none => 0)).sum

/-- Number of slots whose course capacity bound exceeds the assigned
room's capacity. -/
def numCapHits (slots : List Slot) (cs : List Course) (rs : List Room) : Nat :=
  slots.countP (fun s =>
    match cs.find? (fun c => c.id == s.courseId), rs.find? (fun r => r.id == s.roomId) with
    | some course, some room => capClash course room
    | _, _ => false)

/-- Recognizer for recorded teacher conflicts. -/
def isTeacherConf : Conflict → Bool
  | Conflict.teacherConflict _ _ => true
  | _ => false

/-- Recognizer for recorded room conflicts. -/
def isRoomConf : Conflict → Bool
  | Conflict.roomConflict _ _ => true
  | _ => false

/-- Recognizer for recorded existing-timetable conflicts. -/
def isExistConf : Conflict → Bool
  | Conflict.existingConflict _ _ => true
  | _ => false

/-! ## C2: the time-overlap test -/

/-- C2: for all time ranges, the overlap test returns true iff `s1 < e2`
and `s2 < e1`, strictly on both sides; ranges touching at an endpoint
(09:00-10:30 vs 10:30-11:30) do not overlap, while 09:00-10:30 vs
10:00-11:30 do. -/
theorem timeOverlap_spec :
    (∀ s1 e1 s2 e2 : Nat, timeOverlap s1 e1 s2 e2 = true ↔ s1 < e2 ∧ s2 < e1) ∧
    timeOverlap 540 630 630 690 = false ∧
    timeOverlap 540 630 600 690 = true := by
  refine ⟨fun s1 e1 s2 e2 => ?_, by decide, by decide⟩
  simp [timeOverlap]

/-- `eliteCount` computes to 10. -/
lemma eliteCount_eq : eliteCount = 10 := by
  norm_num [eliteCount, populationSize]
  rfl

/-- The pair conflicts recorded for a fixed first slot, in loop order. -/
def pairConfs (s : Slot) (l : List Slot) : List Conflict :=
  l.flatMap (fun t =>
    (if teacherClash s t then [Conflict.teacherConflict s t] else []) ++
    (if roomClash s t then [Conflict.roomConflict s t] else []))

/-- The existing-entry conflicts recorded for a fixed slot, in loop order. -/
def existConfs (s : Slot) (ex : List TEntry) : List Conflict :=
  ex.flatMap (fun e => if existClash s e then [Conflict.existingConflict s e] else [])

/-- The pair and existing conflicts of the whole slot list, in loop order. -/
def peConfs (ex : List TEntry) : List Slot → List Conflict
  | [] => []
  | s :: rest => pairConfs s rest ++ existConfs s ex ++ peConfs ex rest

lemma pairFold_eq (s : Slot) : ∀ (l : List Slot) (st : ℚ × List Conflict),
    pairFold s l st =
      (st.1 - 3/10 * (l.countP (teacherClash s) : ℚ) - 4/10 * (l.countP (roomClash s) : ℚ),
       st.2 ++ pairConfs s l)
  | [], st => by simp [pairFold, pairConfs]
  | t :: rest, st => by
    rw [pairFold, pairFold_eq s rest]
    cases hT : teacherClash s t <;> cases hR : roomClash s t <;>
      refine Prod.ext ?_ ?_ <;>
      simp [pairConfs, List.countP_cons, hT, hR] <;> push_cast <;> ring

lemma existFold_eq (s : Slot) : ∀ (ex : List TEntry) (st : ℚ × List Conflict),
    existFold s ex st =
      (st.1 - 2/10 * (ex.countP (existClash s) : ℚ), st.2 ++ existConfs s ex)
  | [], st => by simp [existFold, existConfs]
  | e :: rest, st => by
    rw [existFold, existFold_eq s rest]
    cases hE : existClash s e <;>
      refine Prod.ext ?_ ?_ <;>
      simp [existConfs, List.countP_cons, hE] <;> push_cast <;> ring

lemma conflictFold_eq (ex : List TEntry) : ∀ (l : List Slot) (st : ℚ × List Conflict),
    conflictFold ex l st =
      (st.1 - 3/10 * (numTeacherPairs l : ℚ) - 4/10 * (numRoomPairs l : ℚ)
         - 2/10 * (numExistHits l ex : ℚ),
       st.2 ++ peConfs ex l)
  | [], st => by simp [conflictFold, peConfs, numTeacherPairs, numRoomPairs, numExistHits, allPairs]
  | s :: rest, st => by
    rw [conflictFold, conflictFold_eq ex rest, existFold_eq, pairFold_eq]
    refine Prod.ext ?_ ?_
    · simp only [numTeacherPairs, numRoomPairs, numExistHits, allPairs, List.countP_append,
        List.map_cons, List.sum_cons, List.countP_map]
      push_cast
      have hc : ∀ p : Slot → Slot → Bool,
          rest.countP ((fun q : Slot × Slot => p q.1 q.2) ∘ fun y => (s, y)) =
            rest.countP (p s) := by
        intro p
        rfl
      rw [hc teacherClash, hc roomClash]
      ring
    · simp [peConfs]

/-- The workload conflicts the evaluator records, in teacher-key order. -/
def workConfs (slots : List Slot) (ts : List Teacher) : List Conflict :=
  (objKeys ts).filterMap (fun tid =>
    match ts.find? (fun t => t.id == tid) with
    | some teacher =>
      if teacher.maxWorkload < teacherHours slots tid then
        some (Conflict.workloadExceeded tid (teacherHours slots tid) teacher.maxWorkload)
      else none
    | none => none)

/-- The capacity conflicts the evaluator records, in slot order. -/
def capConfs (slots : List Slot) (cs : List Course) (rs : List Room) : List Conflict :=
  slots.filterMap (fun s =>
    match cs.find? (fun c => c.id == s.courseId), rs.find? (fun r => r.id == s.roomId) with
    | some course, some room =>
      if capClash course room then some (Conflict.capacityExceeded s course room) else none
    | _, _ => none)

lemma lookup_map_keys (f : String → ℚ) (tid : String) : ∀ (keys : List String),
    (keys.map (fun k => (k, f k))).lookup tid =
      if tid ∈ keys then some (f tid) else none
  | [] => by simp
  | k :: keys => by
    by_cases h : tid = k
    · subst h
      simp [List.lookup_cons]
    · have hbeq : (tid == k) = false := beq_eq_false_iff_ne.mpr h
      simp only [List.map_cons, List.lookup_cons, hbeq, List.mem_cons]
      rw [lookup_map_keys f tid keys]
      simp [h]

lemma bump_map_keys (f : String → ℚ) (tid : String) (d : ℚ) (keys : List String) :
    bump (keys.map (fun k => (k, f k))) tid d =
      keys.map (fun k => (k, if k = tid then f k + d else f k)) := by
  simp only [bump, List.map_map]
  refine List.map_congr_left (fun k _ => ?_)
  by_cases h : k = tid <;> simp [h]

lemma applySlots_map_keys : ∀ (slots : List Slot) (keys : List String) (f : String → ℚ),
    applySlots slots (keys.map (fun k => (k, f k))) =
      keys.map (fun k => (k, f k + teacherHours slots k))
  | [], keys, f => by
    simp [applySlots, teacherHours]
  | s :: rest, keys, f => by
    rw [applySlots]
    by_cases h : s.teacherId ∈ keys
    · rw [if_pos (by simp [lookup_map_keys, h]), bump_map_keys,
        applySlots_map_keys rest keys _]
      refine List.map_congr_left (fun k _ => ?_)
      by_cases hk : k = s.teacherId
      · subst hk
        simp [teacherHours, List.filter_cons]
        ring
      · have hbeq : (s.teacherId == k) = false := beq_eq_false_iff_ne.mpr (Ne.symm hk)
        simp [teacherHours, List.filter_cons, hbeq, hk]
    · rw [if_neg (by simp [lookup_map_keys, h]), applySlots_map_keys rest keys f]
      refine List.map_congr_left (fun k hk => ?_)
      have hne : (s.teacherId == k) = false := by
        simp only [beq_eq_false_iff_ne, ne_eq]
        exact fun he => h (he ▸ hk)
      simp [teacherHours, List.filter_cons, hne]

/-- `calculateTeacherWorkloads` is, entry by entry, the per-teacher sum of
slot durations. -/
lemma calculateTeacherWorkloads_eq (slots : List Slot) (ts : List Teacher) :
    calculateTeacherWorkloads slots ts =
      (objKeys ts).map (fun k => (k, teacherHours slots k)) := by
  rw [calculateTeacherWorkloads, applySlots_map_keys slots (objKeys ts) (fun _ => 0)]
  simp

lemma workFold_eq (ts : List Teacher) : ∀ (keys : List String) (g : String → ℚ)
    (st : ℚ × List Conflict),
    workFold ts (keys.map (fun k => (k, g k))) st =
      (st.1 - (keys.map (fun tid =>
          match ts.find? (fun t => t.id == tid) with
          | some teacher =>
            if teacher.maxWorkload < g tid then 1/10 * (g tid - teacher.maxWorkload) else 0
          | none => 0)).sum,
       st.2 ++ keys.filterMap (fun tid =>
          match ts.find? (fun t => t.id == tid) with
          | some teacher =>
            if teacher.maxWorkload < g tid then
              some (Conflict.workloadExceeded tid (g tid) teacher.maxWorkload)
            else none
          | none => none))
  | [], g, st => by simp [workFold]
  | tid :: keys, g, st => by
    rw [List.map_cons, workFold, workFold_eq ts keys g]
    match hf : ts.find? (fun t => t.id == tid) with
    | some teacher =>
      by_cases hw : teacher.maxWorkload < g tid <;>
        refine Prod.ext ?_ ?_ <;>
        simp [hf, hw, List.filterMap_cons] <;> ring
    | none =>
      refine Prod.ext ?_ ?_ <;> simp [hf, List.filterMap_cons] <;> ring

lemma capFold_eq (cs : List Course) (rs : List Room) : ∀ (l : List Slot)
    (st : ℚ × List Conflict),
    capFold cs rs l st =
      (st.1 - 1/10 * (numCapHits l cs rs : ℚ), st.2 ++ capConfs l cs rs)
  | [], st => by simp [capFold, numCapHits, capConfs]
  | s :: rest, st => by
    rw [capFold, capFold_eq cs rs rest]
    match hc : cs.find? (fun c => c.id == s.courseId), hr : rs.find? (fun r => r.id == s.roomId) with
    | some course, some room =>
      by_cases hcap : capClash course room <;>
        refine Prod.ext ?_ ?_ <;>
        simp [numCapHits, capConfs, List.countP_cons, List.filterMap_cons, hc, hr, hcap] <;>
        push_cast <;> ring
    | some course, none =>
      refine Prod.ext ?_ ?_ <;>
        simp [numCapHits, capConfs, List.countP_cons, List.filterMap_cons, hc, hr]
    | none, _ =>
      refine Prod.ext ?_ ?_ <;>
        simp [numCapHits, capConfs, List.countP_cons, List.filterMap_cons, hc]

lemma pairConfs_cons (s t : Slot) (rest : List Slot) :
    pairConfs s (t :: rest) =
      ((if teacherClash s t then [Conflict.teacherConflict s t] else []) ++
       (if roomClash s t then [Conflict.roomConflict s t] else [])) ++ pairConfs s rest := rfl

lemma existConfs_cons (s : Slot) (e : TEntry) (rest : List TEntry) :
    existConfs s (e :: rest) =
      (if existClash s e then [Conflict.existingConflict s e] else []) ++
        existConfs s rest := rfl

lemma pairConfs_count_teacher (s : Slot) : ∀ l : List Slot,
    (pairConfs s l).countP isTeacherConf = l.countP (teacherClash s)
  | [] => rfl
  | t :: rest => by
    rw [pairConfs_cons, List.countP_append, List.countP_append,
      pairConfs_count_teacher s rest]
    cases hT : teacherClash s t <;> cases hR : roomClash s t <;>
      simp [hT, hR, isTeacherConf, List.countP_cons] <;> omega

lemma pairConfs_count_room (s : Slot) : ∀ l : List Slot,
    (pairConfs s l).countP isRoomConf = l.countP (roomClash s)
  | [] => rfl
  | t :: rest => by
    rw [pairConfs_cons, List.countP_append, List.countP_append,
      pairConfs_count_room s rest]
    cases hT : teacherClash s t <;> cases hR : roomClash s t <;>
      simp [hT, hR, isRoomConf, List.countP_cons] <;> omega

lemma pairConfs_count_exist (s : Slot) : ∀ l : List Slot,
    (pairConfs s l).countP isExistConf = 0
  | [] => rfl
  | t :: rest => by
    rw [pairConfs_cons, List.countP_append, List.countP_append,
      pairConfs_count_exist s rest]
    cases hT : teacherClash s t <;> cases hR : roomClash s t <;>
      simp [hT, hR, isExistConf, List.countP_cons]

lemma existConfs_count_exist (s : Slot) : ∀ ex : List TEntry,
    (existConfs s ex).countP isExistConf = ex.countP (existClash s)
  | [] => rfl
  | e :: rest => by
    rw [existConfs_cons, List.countP_append, existConfs_count_exist s rest]
    cases hE : existClash s e <;>
      simp [hE, isExistConf, List.countP_cons] <;> omega

lemma existConfs_count_teacher (s : Slot) : ∀ ex : List TEntry,
    (existConfs s ex).countP isTeacherConf = 0
  | [] => rfl
  | e :: rest => by
    rw [existConfs_cons, List.countP_append, existConfs_count_teacher s rest]
    cases hE : existClash s e <;>
      simp [hE, isTeacherConf, List.countP_cons]

lemma existConfs_count_room (s : Slot) : ∀ ex : List TEntry,
    (existConfs s ex).countP isRoomConf = 0
  | [] => rfl
  | e :: rest => by
    rw [existConfs_cons, List.countP_append, existConfs_count_room s rest]
    cases hE : existClash s e <;>
      simp [hE, isRoomConf, List.countP_cons]

lemma countP_pair_fst (s : Slot) (rest : List Slot) (p : Slot → Slot → Bool) :
    rest.countP ((fun q : Slot × Slot => p q.1 q.2) ∘ fun y => (s, y)) =
      rest.countP (p s) := rfl

lemma peConfs_count_teacher (ex : List TEntry) : ∀ l : List Slot,
    (peConfs ex l).countP isTeacherConf = numTeacherPairs l
  | [] => rfl
  | s :: rest => by
    simp only [peConfs, List.countP_append, pairConfs_count_teacher,
      existConfs_count_teacher, peConfs_count_teacher ex rest,
      numTeacherPairs, allPairs, List.countP_map, countP_pair_fst]
    omega

lemma peConfs_count_room (ex : List TEntry) : ∀ l : List Slot,
    (peConfs ex l).countP isRoomConf = numRoomPairs l
  | [] => rfl
  | s :: rest => by
    simp only [peConfs, List.countP_append, pairConfs_count_room,
      existConfs_count_room, peConfs_count_room ex rest,
      numRoomPairs, allPairs, List.countP_map, countP_pair_fst]
    omega

lemma peConfs_count_exist (ex : List TEntry) : ∀ l : List Slot,
    (peConfs ex l).countP isExistConf = numExistHits l ex
  | [] => rfl
  | s :: rest => by
    simp only [peConfs, List.countP_append, pairConfs_count_exist,
      existConfs_count_exist, peConfs_count_exist ex rest,
      numExistHits, List.map_cons, List.sum_cons]
    omega

lemma workConfs_count (slots : List Slot) (ts : List Teacher) (p : Conflict → Bool)
    (hp : ∀ tid w m, p (Conflict.workloadExceeded tid w m) = false) :
    (workConfs slots ts).countP p = 0 := by
  rw [List.countP_eq_zero]
  intro c hc
  simp only [workConfs, List.mem_filterMap] at hc
  obtain ⟨tid, -, hf⟩ := hc
  split at hf
  · split at hf
    · cases hf
      simp [hp]
    · exact absurd hf (by simp)
  · exact absurd hf (by simp)

lemma capConfs_count (slots : List Slot) (cs : List Course) (rs : List Room)
    (p : Conflict → Bool)
    (hp : ∀ s course room, p (Conflict.capacityExceeded s course room) = false) :
    (capConfs slots cs rs).countP p = 0 := by
  rw [List.countP_eq_zero]
  intro c hc
  simp only [capConfs, List.mem_filterMap] at hc
  obtain ⟨s, -, hf⟩ := hc
  split at hf
  · split at hf
    · cases hf
      simp [hp]
    · exact absurd hf (by simp)
  · exact absurd hf (by simp)

lemma calculateFitness_eq (slots : List Slot) (ts : List Teacher) (cs : List Course)
    (rs : List Room) (ex : List TEntry) :
    calculateFitness slots ts cs rs ex =
      (max 0 (1 - 3/10 * (numTeacherPairs slots : ℚ) - 4/10 * (numRoomPairs slots : ℚ)
          - 2/10 * (numExistHits slots ex : ℚ) - workloadPenalty slots ts
          - 1/10 * (numCapHits slots cs rs : ℚ)),
       peConfs ex slots ++ workConfs slots ts ++ capConfs slots cs rs) := by
  rw [calculateFitness, conflictFold_eq, calculateTeacherWorkloads_eq,
    workFold_eq, capFold_eq]
  refine Prod.ext ?_ ?_
  · show max 0 _ = max 0 _
    congr 1
  · simp [workConfs]

/-- C1: the fitness evaluator starts from 1.0 and, per unordered pair of
genes, subtracts 0.3 recording a TEACHER_CONFLICT on a same-teacher
same-day overlap and 0.4 recording a ROOM_CONFLICT on a same-room
same-day overlap (one pair can trigger both); per gene and existing
committed entry with same teacher, same day and overlap it subtracts 0.2
recording an EXISTING_CONFLICT; the returned value is max(0, fitness)
with no upper clamp. -/
theorem claim_C1_fitness_evaluator (slots : List Slot) (ts : List Teacher)
    (cs : List Course) (rs : List Room) (ex : List TEntry) :
    (calculateFitness slots ts cs rs ex).1 =
      max 0 (1 - 3/10 * (numTeacherPairs slots : ℚ) - 4/10 * (numRoomPairs slots : ℚ)
        - 2/10 * (numExistHits slots ex : ℚ) - workloadPenalty slots ts
        - 1/10 * (numCapHits slots cs rs : ℚ)) ∧
    (calculateFitness slots ts cs rs ex).2.countP isTeacherConf = numTeacherPairs slots ∧
    (calculateFitness slots ts cs rs ex).2.countP isRoomConf = numRoomPairs slots ∧
    (calculateFitness slots ts cs rs ex).2.countP isExistConf = numExistHits slots ex := by
  rw [calculateFitness_eq]
  refine ⟨rfl, ?_, ?_, ?_⟩ <;> rw [List.countP_append, List.countP_append]
  · rw [peConfs_count_teacher, workConfs_count _ _ _ (fun _ _ _ => rfl),
      capConfs_count _ _ _ _ (fun _ _ _ => rfl)]
    omega
  · rw [peConfs_count_room, workConfs_count _ _ _ (fun _ _ _ => rfl),
      capConfs_count _ _ _ _ (fun _ _ _ => rfl)]
    omega
  · rw [peConfs_count_exist, workConfs_count _ _ _ (fun _ _ _ => rfl),
      capConfs_count _ _ _ _ (fun _ _ _ => rfl)]
    omega

lemma mem_insertKey (k k' : String) (ks : List String) :
    k ∈ insertKey ks k' ↔ k ∈ ks ∨ k = k' := by
  unfold insertKey
  split
  · constructor
    · exact Or.inl
    · rintro (h | rfl)
      · exact h
      · assumption
  · simp

lemma mem_foldl_insertKey (k : String) : ∀ (ts : List Teacher) (acc : List String),
    k ∈ ts.foldl (fun ks t => insertKey ks t.id) acc ↔ k ∈ acc ∨ ∃ t ∈ ts, t.id = k
  | [], acc => by simp
  | t :: ts, acc => by
    rw [List.foldl_cons, mem_foldl_insertKey k ts, mem_insertKey]
    simp only [List.mem_cons]
    constructor
    · rintro ((h | rfl) | ⟨u, hu, rfl⟩)
      · exact Or.inl h
      · exact Or.inr ⟨t, Or.inl rfl, rfl⟩
      · exact Or.inr ⟨u, Or.inr hu, rfl⟩
    · rintro (h | ⟨u, hu | hu, rfl⟩)
      · exact Or.inl (Or.inl h)
      · subst hu
        exact Or.inl (Or.inr rfl)
      · exact Or.inr ⟨u, hu, rfl⟩

lemma objKeys_mem (k : String) (ts : List Teacher) :
    k ∈ objKeys ts ↔ ∃ t ∈ ts, t.id = k := by
  rw [objKeys, mem_foldl_insertKey]
  simp

/-- C6: a teacher's aggregate workload is the summed duration in hours of
that teacher's genes (0 when the teacher has no genes), every supplied
teacher gets an entry, and each teacher whose workload strictly exceeds
maxWorkload yields a WORKLOAD_EXCEEDED record in the evaluator output and
an uncapped fitness penalty of 0.1 * (workload - maxWorkload). -/
theorem claim_C6_workload :
    (∀ ts tid, tid ∈ objKeys ts ↔ ∃ t ∈ ts, t.id = tid) ∧
    (∀ slots ts tid, tid ∈ objKeys ts →
      (calculateTeacherWorkloads slots ts).lookup tid = some (teacherHours slots tid)) ∧
    (∀ slots ts tid, tid ∈ objKeys ts → (∀ s ∈ slots, s.teacherId ≠ tid) →
      (calculateTeacherWorkloads slots ts).lookup tid = some 0) ∧
    (∀ slots ts st, workFold ts (calculateTeacherWorkloads slots ts) st =
      (st.1 - workloadPenalty slots ts, st.2 ++ workConfs slots ts)) ∧
    (∀ slots ts cs rs ex tid teacher,
      ts.find? (fun t => t.id == tid) = some teacher → tid ∈ objKeys ts →
      teacher.maxWorkload < teacherHours slots tid →
      Conflict.workloadExceeded tid (teacherHours slots tid) teacher.maxWorkload ∈
        (calculateFitness slots ts cs rs ex).2) := by
  have hlk : ∀ (slots : List Slot) (ts : List Teacher) (tid : String), tid ∈ objKeys ts →
      (calculateTeacherWorkloads slots ts).lookup tid = some (teacherHours slots tid) := by
    intro slots ts tid hmem
    rw [calculateTeacherWorkloads_eq, lookup_map_keys, if_pos hmem]
  refine ⟨fun ts tid => objKeys_mem tid ts, hlk, ?_, ?_, ?_⟩
  · intro slots ts tid hmem hnone
    rw [hlk slots ts tid hmem]
    have : teacherHours slots tid = 0 := by
      rw [teacherHours, List.filter_eq_nil_iff.mpr ?_]
      · rfl
      · intro s hs
        exact beq_eq_false_iff_ne.mpr (hnone s hs) ▸ (by simp [hnone s hs])
    rw [this]
  · intro slots ts st
    rw [calculateTeacherWorkloads_eq, workFold_eq]
    rfl
  · intro slots ts cs rs ex tid teacher hfind hmem hover
    rw [calculateFitness_eq]
    refine List.mem_append_left _ (List.mem_append_right _ ?_)
    rw [workConfs, List.mem_filterMap]
    exact ⟨tid, hmem, by simp [hfind, hover]⟩

/-- Witness for C6: two 1.5-hour genes of teacher T sum to 3 hours, the
lone supplied teacher is keyed, and with maxWorkload 1 the evaluator
records the WORKLOAD_EXCEEDED conflict. -/
theorem claim_C6_workload_witness :
    ("T" ∈ objKeys [⟨"T", 1⟩] ↔ ∃ t ∈ [(⟨"T", 1⟩ : Teacher)], t.id = "T") ∧
    (calculateTeacherWorkloads
        [⟨"c1", "T", "R", 1, 540, 630, 3⟩, ⟨"c2", "T", "R", 2, 645, 735, 3⟩]
        [⟨"T", 1⟩]).lookup "T" =
      some (teacherHours
        [⟨"c1", "T", "R", 1, 540, 630, 3⟩, ⟨"c2", "T", "R", 2, 645, 735, 3⟩] "T") ∧
    teacherHours
      [⟨"c1", "T", "R", 1, 540, 630, 3⟩, ⟨"c2", "T", "R", 2, 645, 735, 3⟩] "T" = 3 ∧
    Conflict.workloadExceeded "T"
        (teacherHours
          [⟨"c1", "T", "R", 1, 540, 630, 3⟩, ⟨"c2", "T", "R", 2, 645, 735, 3⟩] "T") 1 ∈
      (calculateFitness
        [⟨"c1", "T", "R", 1, 540, 630, 3⟩, ⟨"c2", "T", "R", 2, 645, 735, 3⟩]
        [⟨"T", 1⟩] [] [] []).2 := by
  refine ⟨claim_C6_workload.1 _ _, claim_C6_workload.2.1 _ _ _ (by decide), ?_, ?_⟩
  · norm_num [teacherHours, durH]
  · refine claim_C6_workload.2.2.2.2 _ _ _ _ _ _ ⟨"T", 1⟩ (by decide) (by decide) ?_
    norm_num [teacherHours, durH]

lemma crossSlots_cons_cons (pick : Nat → Bool) (k : Nat) (a b : Slot)
    (as bs : List Slot) :
    crossSlots pick k (a :: as) (b :: bs) =
      (if pick k then a else b) :: crossSlots pick (k + 1) as bs := by
  simp [crossSlots]

lemma crossSlots_cons_nil (pick : Nat → Bool) (k : Nat) (a : Slot) (as : List Slot) :
    crossSlots pick k (a :: as) [] = a :: crossSlots pick (k + 1) as [] := by
  simp [crossSlots]

lemma crossSlots_nil_cons (pick : Nat → Bool) (k : Nat) (b : Slot) (bs : List Slot) :
    crossSlots pick k [] (b :: bs) = b :: crossSlots pick (k + 1) [] bs := by
  simp [crossSlots]

lemma crossSlots_length (pick : Nat → Bool) : ∀ (k : Nat) (as bs : List Slot),
    (crossSlots pick k as bs).length = max as.length bs.length
  | _, [], [] => by simp [crossSlots]
  | k, _ :: as, _ :: bs => by
    rw [crossSlots_cons_cons, List.length_cons, crossSlots_length pick (k + 1) as bs]
    simp only [List.length_cons]
    omega
  | k, _ :: as, [] => by
    rw [crossSlots_cons_nil, List.length_cons, crossSlots_length pick (k + 1) as []]
    simp only [List.length_cons, List.length_nil]
    omega
  | k, [], _ :: bs => by
    rw [crossSlots_nil_cons, List.length_cons, crossSlots_length pick (k + 1) [] bs]
    simp only [List.length_cons, List.length_nil]
    omega

lemma crossSlots_get_both (pick : Nat → Bool) :
    ∀ (k : Nat) (as bs : List Slot) (i : Nat) (a b : Slot),
    as[i]? = some a → bs[i]? = some b →
    (crossSlots pick k as bs)[i]? = some (if pick (k + i) then a else b)
  | k, a' :: as, b' :: bs, 0, a, b => by
    intro h1 h2
    simp only [List.getElem?_cons_zero, Option.some.injEq] at h1 h2
    subst h1
    subst h2
    rw [crossSlots_cons_cons, List.getElem?_cons_zero, Nat.add_zero]
  | k, a' :: as, b' :: bs, i + 1, a, b => by
    intro h1 h2
    simp only [List.getElem?_cons_succ] at h1 h2
    rw [crossSlots_cons_cons, List.getElem?_cons_succ,
      crossSlots_get_both pick (k + 1) as bs i a b h1 h2]
    have he : k + 1 + i = k + (i + 1) := by omega
    rw [he]
  | _, [], _, i, _, _ => by
    intro h1
    simp at h1
  | _, _ :: _, [], i, _, _ => by
    intro _ h2
    simp at h2

lemma crossSlots_get_left (pick : Nat → Bool) :
    ∀ (k : Nat) (as bs : List Slot) (i : Nat) (a : Slot),
    as[i]? = some a → bs[i]? = none →
    (crossSlots pick k as bs)[i]? = some a
  | k, a' :: as, b' :: bs, 0, a => by
    intro h1 h2
    simp at h2
  | k, a' :: as, b' :: bs, i + 1, a => by
    intro h1 h2
    simp only [List.getElem?_cons_succ] at h1 h2
    rw [crossSlots_cons_cons, List.getElem?_cons_succ]
    exact crossSlots_get_left pick (k + 1) as bs i a h1 h2
  | k, a' :: as, [], 0, a => by
    intro h1 _
    simp only [List.getElem?_cons_zero, Option.some.injEq] at h1
    subst h1
    rw [crossSlots_cons_nil, List.getElem?_cons_zero]
  | k, a' :: as, [], i + 1, a => by
    intro h1 _
    simp only [List.getElem?_cons_succ] at h1
    rw [crossSlots_cons_nil, List.getElem?_cons_succ]
    exact crossSlots_get_left pick (k + 1) as [] i a h1 (by simp)
  | _, [], _, i, _ => by
    intro h1 _
    simp at h1

lemma crossSlots_get_right (pick : Nat → Bool) :
    ∀ (k : Nat) (as bs : List Slot) (i : Nat) (b : Slot),
    as[i]? = none → bs[i]? = some b →
    (crossSlots pick k as bs)[i]? = some b
  | k, a' :: as, b' :: bs, 0, b => by
    intro h1 _
    simp at h1
  | k, a' :: as, b' :: bs, i + 1, b => by
    intro h1 h2
    simp only [List.getElem?_cons_succ] at h1 h2
    rw [crossSlots_cons_cons, List.getElem?_cons_succ]
    exact crossSlots_get_right pick (k + 1) as bs i b h1 h2
  | k, [], b' :: bs, 0, b => by
    intro _ h2
    simp only [List.getElem?_cons_zero, Option.some.injEq] at h2
    subst h2
    rw [crossSlots_nil_cons, List.getElem?_cons_zero]
  | k, [], b' :: bs, i + 1, b => by
    intro _ h2
    simp only [List.getElem?_cons_succ] at h2
    rw [crossSlots_nil_cons, List.getElem?_cons_succ]
    exact crossSlots_get_right pick (k + 1) [] bs i b (by simp) h2
  | _, _, [], i, _ => by
    intro _ h2
    simp at h2

/-- C5: crossover yields a child of length max(len(p1), len(p2)); where
both parents have a gene at an index the child takes the one selected by
the random bit, and where only one parent has a gene the child takes it
unconditionally. -/
theorem claim_C5_crossover :
    (∀ (p1 p2 : Individual) (pick : Nat → Bool),
      (crossover p1 p2 pick).slots.length = max p1.slots.length p2.slots.length) ∧
    (∀ (p1 p2 : Individual) (pick : Nat → Bool) (i : Nat) (a b : Slot),
      p1.slots[i]? = some a → p2.slots[i]? = some b →
      (crossover p1 p2 pick).slots[i]? = some (if pick i then a else b)) ∧
    (∀ (p1 p2 : Individual) (pick : Nat → Bool) (i : Nat) (a : Slot),
      p1.slots[i]? = some a → p2.slots[i]? = none →
      (crossover p1 p2 pick).slots[i]? = some a) ∧
    (∀ (p1 p2 : Individual) (pick : Nat → Bool) (i : Nat) (b : Slot),
      p1.slots[i]? = none → p2.slots[i]? = some b →
      (crossover p1 p2 pick).slots[i]? = some b) := by
  refine ⟨fun p1 p2 pick => crossSlots_length pick 0 _ _, ?_, ?_, ?_⟩
  · intro p1 p2 pick i a b h1 h2
    rw [show (crossover p1 p2 pick).slots = crossSlots pick 0 p1.slots p2.slots from rfl,
      crossSlots_get_both pick 0 _ _ i a b h1 h2, Nat.zero_add]
  · intro p1 p2 pick i a h1 h2
    exact crossSlots_get_left pick 0 _ _ i a h1 h2
  · intro p1 p2 pick i b h1 h2
    exact crossSlots_get_right pick 0 _ _ i b h1 h2

/-- The 5-gene parent used in the C5 witness. -/
def witnessParent1 : Individual :=
  ⟨[⟨"a", "T", "R", 1, 540, 630, 3⟩, ⟨"b", "T", "R", 1, 540, 630, 3⟩,
    ⟨"c", "T", "R", 1, 540, 630, 3⟩, ⟨"d", "T", "R", 1, 540, 630, 3⟩,
    ⟨"e", "T", "R", 1, 540, 630, 3⟩], [], 0⟩

/-- The 3-gene parent used in the C5 witness. -/
def witnessParent2 : Individual :=
  ⟨[⟨"x", "T", "R", 1, 540, 630, 3⟩, ⟨"y", "T", "R", 1, 540, 630, 3⟩,
    ⟨"z", "T", "R", 1, 540, 630, 3⟩], [], 0⟩

/-- Witness for C5: crossing a 5-gene parent with a 3-gene parent (with a
bit stream that always picks the first parent) yields a 5-gene child, and
the index rules hold at indices 0 and 3. -/
theorem claim_C5_crossover_witness :
    (crossover witnessParent1 witnessParent2 (fun _ => true)).slots.length = 5 ∧
    (crossover witnessParent1 witnessParent2 (fun _ => true)).slots[0]? =
      some ⟨"a", "T", "R", 1, 540, 630, 3⟩ ∧
    (crossover witnessParent1 witnessParent2 (fun _ => true)).slots[3]? =
      some ⟨"d", "T", "R", 1, 540, 630, 3⟩ := by
  refine ⟨?_, ?_, ?_⟩
  · rw [claim_C5_crossover.1 witnessParent1 witnessParent2 (fun _ => true)]
    rfl
  · have h := claim_C5_crossover.2.1 witnessParent1 witnessParent2 (fun _ => true) 0
      ⟨"a", "T", "R", 1, 540, 630, 3⟩ ⟨"x", "T", "R", 1, 540, 630, 3⟩ rfl rfl
    simpa using h
  · exact claim_C5_crossover.2.2.1 witnessParent1 witnessParent2 (fun _ => true) 3
      ⟨"d", "T", "R", 1, 540, 630, 3⟩ rfl rfl

/-- The ids of the courses whose declared teacher resolves in the
snapshot, in course order: the courses an individual must carry one gene
for. -/
def resolvableIds (snap : Snapshot) : List String :=
  (snap.courses.filter (fun c =>
    (snap.teachers.find? (fun t => t.id == c.teacherId)).isSome)).map (fun c => c.id)

lemma generateRandomSlot_courseId (c : Course) (t : Teacher) (rs : List Room)
    (ch : SlotChoice) (s : Slot) (h : generateRandomSlot c t rs ch = some s) :
    s.courseId = c.id := by
  rw [generateRandomSlot] at h
  split at h
  · exact absurd h (by simp)
  · cases h
    rfl

lemma buildSlots_courseIds (ts : List Teacher) (rs : List Room) (ch : Nat → SlotChoice) :
    ∀ (cs : List Course) (k : Nat) (sl : List Slot),
    buildSlots ts rs ch cs k = some sl →
    sl.map (fun s => s.courseId) =
      (cs.filter (fun c => (ts.find? (fun t => t.id == c.teacherId)).isSome)).map
        (fun c => c.id)
  | [], k, sl => by
    intro h
    rw [buildSlots] at h
    cases h
    rfl
  | c :: cs, k, sl => by
    intro h
    rw [buildSlots] at h
    split at h
    · rename_i hfind
      rw [buildSlots_courseIds ts rs ch cs (k + 1) sl h, List.filter_cons,
        if_neg (by simp [hfind])]
    · rename_i t hfind
      split at h
      · exact absurd h (by simp)
      · rename_i s hgen
        split at h
        · exact absurd h (by simp)
        · rename_i rest hrest
          cases h
          rw [List.map_cons, buildSlots_courseIds ts rs ch cs (k + 1) rest hrest,
            List.filter_cons, if_pos (by simp [hfind]), List.map_cons,
            generateRandomSlot_courseId c t rs (ch k) s hgen]

lemma initLoop_inv (snap : Snapshot) (ch : Nat → Nat → SlotChoice) :
    ∀ (i n : Nat) (pop : List Individual), initLoop snap ch i n = some pop →
    ∀ ind ∈ pop, ind.slots.map (fun s => s.courseId) = resolvableIds snap
  | i, 0, pop => by
    intro h
    rw [initLoop] at h
    cases h
    simp
  | i, Nat.succ n, pop => by
    intro h
    rw [initLoop] at h
    split at h
    · exact absurd h (by simp)
    · rename_i sl hsl
      split at h
      · exact absurd h (by simp)
      · rename_i rest hrest
        cases h
        intro ind hind
        rcases List.mem_cons.mp hind with hi | hi
        · subst hi
          exact buildSlots_courseIds snap.teachers snap.rooms (ch i) snap.courses 0 sl hsl
        · exact initLoop_inv snap ch (i + 1) n rest hrest ind hi

lemma crossSlots_map_courseId (pick : Nat → Bool) : ∀ (k : Nat) (as bs : List Slot),
    as.map (fun s => s.courseId) = bs.map (fun s => s.courseId) →
    (crossSlots pick k as bs).map (fun s => s.courseId) = as.map (fun s => s.courseId)
  | k, [], [] => by
    intro _
    simp [crossSlots]
  | k, a :: as, b :: bs => by
    intro h
    simp only [List.map_cons, List.cons.injEq] at h
    rw [crossSlots_cons_cons]
    by_cases hp : pick k <;>
      simp [hp, crossSlots_map_courseId pick (k + 1) as bs h.2, h.1]
  | k, _ :: _, [] => by
    intro h
    simp at h
  | k, [], _ :: _ => by
    intro h
    simp at h

lemma mutateSlots_courseIds (snap : Snapshot) (ch : Nat → Option SlotChoice) :
    ∀ (slots : List Slot) (k : Nat) (sl : List Slot),
    mutateSlots snap ch slots k = some sl →
    sl.map (fun s => s.courseId) = slots.map (fun s => s.courseId)
  | [], k, sl => by
    intro h
    rw [mutateSlots] at h
    cases h
    rfl
  | s :: rest, k, sl => by
    intro h
    rw [mutateSlots] at h
    split at h
    · rcases Option.map_eq_some'.mp h with ⟨l, hl, rfl⟩
      simp [mutateSlots_courseIds snap ch rest (k + 1) l hl]
    · split at h
      · exact absurd h (by simp)
      · rename_i course hfind
        split at h
        · rcases Option.map_eq_some'.mp h with ⟨l, hl, rfl⟩
          simp [mutateSlots_courseIds snap ch rest (k + 1) l hl]
        · rename_i teacher hteach
          split at h
          · exact absurd h (by simp)
          · rename_i s' hgen
            rcases Option.map_eq_some'.mp h with ⟨l, hl, rfl⟩
            have hcid : course.id = s.courseId := by
              have hbeq := List.find?_some hfind
              simpa using hbeq
            simp [mutateSlots_courseIds snap ch rest (k + 1) l hl,
              generateRandomSlot_courseId course teacher snap.rooms _ s' hgen, hcid]

/-- C3: every individual carries exactly one gene per course of the
candidate set whose teacher resolves, in course order; population
initialization establishes this and crossover and mutation preserve it
(a mutated gene keeps its courseId and crossover combines genes at equal
indices). -/
theorem claim_C3_one_gene_per_course :
    (∀ (snap : Snapshot) (ch : Nat → Nat → SlotChoice) (size : Nat)
       (pop : List Individual),
      initializePopulation size snap ch = some pop →
      ∀ ind ∈ pop, ind.slots.map (fun s => s.courseId) = resolvableIds snap) ∧
    (∀ (p1 p2 : Individual) (pick : Nat → Bool) (ids : List String),
      p1.slots.map (fun s => s.courseId) = ids →
      p2.slots.map (fun s => s.courseId) = ids →
      (crossover p1 p2 pick).slots.map (fun s => s.courseId) = ids) ∧
    (∀ (ind : Individual) (snap : Snapshot) (ch : Nat → Option SlotChoice)
       (m : Individual),
      mutate ind snap ch = some m →
      m.slots.map (fun s => s.courseId) = ind.slots.map (fun s => s.courseId)) := by
  refine ⟨?_, ?_, ?_⟩
  · intro snap ch size pop h
    exact initLoop_inv snap ch 0 size pop h
  · intro p1 p2 pick ids h1 h2
    rw [show (crossover p1 p2 pick).slots = crossSlots pick 0 p1.slots p2.slots from rfl,
      crossSlots_map_courseId pick 0 p1.slots p2.slots (h1.trans h2.symm), h1]
  · intro ind snap ch m h
    rcases Option.map_eq_some'.mp h with ⟨l, hl, rfl⟩
    exact mutateSlots_courseIds snap ch ind.slots 0 l hl

/-- Witness for C3 at a concrete snapshot: a course with an unresolvable
teacher is dropped at initialization, a crossover of two aligned parents
keeps the course ids, and a mutation keeps the course ids. -/
theorem claim_C3_one_gene_per_course_witness :
    ((⟨[⟨"c1", "T", "R", 1, 540, 630, 3⟩], [], 0⟩ : Individual).slots.map
        (fun s => s.courseId) =
      resolvableIds ⟨[⟨"st"⟩], [⟨"T", 40⟩], [⟨"c1", "T", 3, 0⟩, ⟨"c2", "TX", 3, 0⟩],
        [⟨"R", 30, "CLASSROOM"⟩], []⟩) ∧
    ((crossover ⟨[⟨"c1", "T", "R", 1, 540, 630, 3⟩], [], 0⟩
        ⟨[⟨"c1", "T", "R", 2, 645, 735, 3⟩], [], 0⟩ (fun _ => false)).slots.map
        (fun s => s.courseId) = ["c1"]) ∧
    ((⟨[⟨"c1", "T", "R", 1, 540, 630, 3⟩], [], 0⟩ : Individual).slots.map
        (fun s => s.courseId) =
      (⟨[⟨"c1", "T", "R", 1, 540, 630, 3⟩], [], 0⟩ : Individual).slots.map
        (fun s => s.courseId)) := by
  refine ⟨?_, ?_, ?_⟩
  · exact claim_C3_one_gene_per_course.1
      ⟨[⟨"st"⟩], [⟨"T", 40⟩], [⟨"c1", "T", 3, 0⟩, ⟨"c2", "TX", 3, 0⟩],
        [⟨"R", 30, "CLASSROOM"⟩], []⟩
      (fun _ _ => ⟨0, 0, 0⟩) 1 [⟨[⟨"c1", "T", "R", 1, 540, 630, 3⟩], [], 0⟩] rfl
      ⟨[⟨"c1", "T", "R", 1, 540, 630, 3⟩], [], 0⟩ (List.mem_singleton.mpr rfl)
  · exact claim_C3_one_gene_per_course.2.1
      ⟨[⟨"c1", "T", "R", 1, 540, 630, 3⟩], [], 0⟩
      ⟨[⟨"c1", "T", "R", 2, 645, 735, 3⟩], [], 0⟩ (fun _ => false) ["c1"] rfl rfl
  · exact claim_C3_one_gene_per_course.2.2
      ⟨[⟨"c1", "T", "R", 1, 540, 630, 3⟩], [], 0⟩
      ⟨[⟨"st"⟩], [⟨"T", 40⟩], [⟨"c1", "T", 3, 0⟩], [⟨"R", 30, "CLASSROOM"⟩], []⟩
      (fun _ => none) ⟨[⟨"c1", "T", "R", 1, 540, 630, 3⟩], [], 0⟩ rfl

/-- Counterexample for C9: a selected gene whose course resolves but
whose teacher is absent from the snapshot is silently left unchanged by
`mutate` (the call returns normally), not treated as a fatal condition. -/
theorem claim_C9_counterexample :
    mutate ⟨[⟨"c1", "T", "R", 1, 540, 630, 3⟩], [], 0⟩
        ⟨[⟨"st"⟩], [], [⟨"c1", "TX", 3, 0⟩], [⟨"R", 30, "CLASSROOM"⟩], []⟩
        (fun _ => some ⟨0, 0, 0⟩) =
      some ⟨[⟨"c1", "T", "R", 1, 540, 630, 3⟩], [], 0⟩ ∧
    List.find? (fun co => co.id == "c1") [(⟨"c1", "TX", 3, 0⟩ : Course)] =
      some ⟨"c1", "TX", 3, 0⟩ ∧
    List.find? (fun t => t.id == "TX") ([] : List Teacher) = none := by
  exact ⟨rfl, rfl, rfl⟩

lemma mutateSlots_course_fault (snap : Snapshot) (ch : Nat → Option SlotChoice) :
    ∀ (slots : List Slot) (k i : Nat) (c : SlotChoice) (s : Slot),
    ch (k + i) = some c → slots[i]? = some s →
    snap.courses.find? (fun co => co.id == s.courseId) = none →
    mutateSlots snap ch slots k = none
  | [], k, i, c, s => by
    intro _ hs _
    simp at hs
  | s' :: rest, k, 0, c, s => by
    intro hch hs hfind
    simp only [List.getElem?_cons_zero, Option.some.injEq] at hs
    subst hs
    rw [Nat.add_zero] at hch
    rw [mutateSlots, hch, hfind]
  | s' :: rest, k, i + 1, c, s => by
    intro hch hs hfind
    simp only [List.getElem?_cons_succ] at hs
    have hrest : mutateSlots snap ch rest (k + 1) = none :=
      mutateSlots_course_fault snap ch rest (k + 1) i c s
        (by rw [show k + 1 + i = k + (i + 1) from by omega]; exact hch) hs hfind
    rcases hck : ch k with _ | c0
    · simp [mutateSlots, hck, hrest]
    · rcases hc : snap.courses.find? (fun co => co.id == s'.courseId) with _ | course
      · simp [mutateSlots, hck, hc]
      · rcases ht : snap.teachers.find? (fun t => t.id == course.teacherId) with _ | teacher
        · simp [mutateSlots, hck, hc, ht, hrest]
        · rcases hg : generateRandomSlot course teacher snap.rooms c0 with _ | s2
          · simp [mutateSlots, hck, hc, ht, hg]
          · simp [mutateSlots, hck, hc, ht, hg, hrest]

lemma mutateSlots_teacher_skip (snap : Snapshot) (ch : Nat → Option SlotChoice) :
    ∀ (slots : List Slot) (k : Nat),
    (∀ (i : Nat) (s : Slot), slots[i]? = some s → ∀ c, ch (k + i) = some c →
      ∃ co, snap.courses.find? (fun co2 => co2.id == s.courseId) = some co ∧
        snap.teachers.find? (fun t => t.id == co.teacherId) = none) →
    mutateSlots snap ch slots k = some slots
  | [], k => by
    intro _
    rw [mutateSlots]
  | s :: rest, k => by
    intro hall
    have hrest : mutateSlots snap ch rest (k + 1) = some rest := by
      refine mutateSlots_teacher_skip snap ch rest (k + 1) ?_
      intro i s2 hs2 c hc
      exact hall (i + 1) s2 (by simpa using hs2) c
        (by rw [show k + (i + 1) = k + 1 + i from by omega]; exact hc)
    rcases hck : ch k with _ | c0
    · simp [mutateSlots, hck, hrest]
    · obtain ⟨co, hco, hteach⟩ := hall 0 s (by simp) c0 (by rw [Nat.add_zero]; exact hck)
      simp [mutateSlots, hck, hco, hteach, hrest]

/-- C9 (amended): during mutation, a selected gene whose course cannot be
resolved from the snapshot is a fatal condition for the call; but when
the course resolves and its teacher is absent, the gene is silently left
unchanged and the call returns normally. -/
theorem claim_C9_mutation_resolution :
    (∀ (ind : Individual) (snap : Snapshot) (ch : Nat → Option SlotChoice)
       (i : Nat) (c : SlotChoice) (s : Slot),
      ch i = some c → ind.slots[i]? = some s →
      snap.courses.find? (fun co => co.id == s.courseId) = none →
      mutate ind snap ch = none) ∧
    (∀ (ind : Individual) (snap : Snapshot) (ch : Nat → Option SlotChoice),
      (∀ (i : Nat) (s : Slot), ind.slots[i]? = some s → ∀ c, ch i = some c →
        ∃ co, snap.courses.find? (fun co2 => co2.id == s.courseId) = some co ∧
          snap.teachers.find? (fun t => t.id == co.teacherId) = none) →
      mutate ind snap ch = some ⟨ind.slots, ind.conflicts, ind.fitness⟩) := by
  constructor
  · intro ind snap ch i c s hch hs hfind
    rw [mutate, mutateSlots_course_fault snap ch ind.slots 0 i c s
      (by rw [Nat.zero_add]; exact hch) hs hfind]
    rfl
  · intro ind snap ch hall
    rw [mutate, mutateSlots_teacher_skip snap ch ind.slots 0
      (fun i s hs c hc => hall i s hs c (by rw [Nat.zero_add] at hc; exact hc))]
    rfl

/-- Witness for the amended C9: with no courses in the snapshot a selected
gene faults the mutation; with the course present but its teacher absent
the individual is returned unchanged. -/
theorem claim_C9_mutation_resolution_witness :
    mutate ⟨[⟨"c1", "T", "R", 1, 540, 630, 3⟩], [], 0⟩
        ⟨[⟨"st"⟩], [⟨"T", 40⟩], [], [⟨"R", 30, "CLASSROOM"⟩], []⟩
        (fun _ => some ⟨0, 0, 0⟩) = none ∧
    mutate ⟨[⟨"c1", "T", "R", 1, 540, 630, 3⟩], [], 0⟩
        ⟨[⟨"st"⟩], [], [⟨"c1", "TX", 3, 0⟩], [⟨"R", 30, "CLASSROOM"⟩], []⟩
        (fun _ => some ⟨1, 1, 1⟩) =
      some ⟨[⟨"c1", "T", "R", 1, 540, 630, 3⟩], [], 0⟩ := by
  constructor
  · exact claim_C9_mutation_resolution.1
      ⟨[⟨"c1", "T", "R", 1, 540, 630, 3⟩], [], 0⟩
      ⟨[⟨"st"⟩], [⟨"T", 40⟩], [], [⟨"R", 30, "CLASSROOM"⟩], []⟩
      (fun _ => some ⟨0, 0, 0⟩) 0 ⟨0, 0, 0⟩ ⟨"c1", "T", "R", 1, 540, 630, 3⟩
      rfl rfl rfl
  · exact claim_C9_mutation_resolution.2
      ⟨[⟨"c1", "T", "R", 1, 540, 630, 3⟩], [], 0⟩
      ⟨[⟨"st"⟩], [], [⟨"c1", "TX", 3, 0⟩], [⟨"R", 30, "CLASSROOM"⟩], []⟩
      (fun _ => some ⟨1, 1, 1⟩)
      (fun i s hs c _ => by
        match i, hs with
        | 0, hs =>
          refine ⟨⟨"c1", "TX", 3, 0⟩, ?_, rfl⟩
          simp only [List.getElem?_cons_zero, Option.some.injEq] at hs
          subst hs
          rfl)

/-- The day-by-period catalog scanned by `findAlternativeTimes`, in scan
order, as (day, start, end) triples. -/
def catalogTriples : List (Nat × Nat × Nat) :=
  days.flatMap (fun d => timeSlots.map (fun ts => (d, ts.1, ts.2)))

/-- Spec-side alternatives (amended C8): the first three catalog
combinations that overlap no gene of the same teacher in the individual,
the conflicting gene itself included. -/
def altTimesSpec (slot : Slot) (allSlots : List Slot) : List (Nat × Nat × Nat) :=
  (catalogTriples.filter (fun p =>
    !(allSlots.any (fun s =>
        s.teacherId == slot.teacherId && s.dayOfWeek == p.1 &&
          timeOverlap s.startTime s.endTime p.2.1 p.2.2)))).take 3

/-- The alternatives the claim describes: combinations overlapping some
OTHER gene of the same teacher are excluded, the gene itself is not
considered. -/
def altTimesClaimed (slot : Slot) (allSlots : List Slot) : List (Nat × Nat × Nat) :=
  (catalogTriples.filter (fun p =>
    !(allSlots.any (fun s =>
        !(s == slot) && s.teacherId == slot.teacherId && s.dayOfWeek == p.1 &&
          timeOverlap s.startTime s.endTime p.2.1 p.2.2)))).take 3

/-- Spec-side suggestion generator (amended C8): per CAPACITY_EXCEEDED
conflict the first CLASSROOM with enough capacity, if any; per
TEACHER_CONFLICT or ROOM_CONFLICT a TIME_CHANGE for the first gene with
the spec-side alternatives. -/
def suggestionsSpec (ind : Individual) (rooms : List Room) : List Suggestion :=
  (ind.conflicts.filterMap (fun c =>
    match c with
    | Conflict.capacityExceeded slot course _ =>
      (rooms.find? (fun r =>
          decide (course.maxStudents ≤ r.capacity) && r.roomType == "CLASSROOM")).map
        (fun r => Suggestion.roomChange slot r "Capacity exceeded")
    | _ => none)) ++
  (ind.conflicts.filterMap (fun c =>
    match c with
    | Conflict.teacherConflict s1 _ =>
      some (Suggestion.timeChange s1 (altTimesSpec s1 ind.slots)
        "Conflict with another class")
    | Conflict.roomConflict s1 _ =>
      some (Suggestion.timeChange s1 (altTimesSpec s1 ind.slots)
        "Conflict with another class")
    | _ => none))

/-- The suggestion generator as the claim literally describes it, with the
"other gene" exclusion in the alternative search. -/
def suggestionsClaimed (ind : Individual) (rooms : List Room) : List Suggestion :=
  (ind.conflicts.filterMap (fun c =>
    match c with
    | Conflict.capacityExceeded slot course _ =>
      (rooms.find? (fun r =>
          decide (course.maxStudents ≤ r.capacity) && r.roomType == "CLASSROOM")).map
        (fun r => Suggestion.roomChange slot r "Capacity exceeded")
    | _ => none)) ++
  (ind.conflicts.filterMap (fun c =>
    match c with
    | Conflict.teacherConflict s1 _ =>
      some (Suggestion.timeChange s1 (altTimesClaimed s1 ind.slots)
        "Conflict with another class")
    | Conflict.roomConflict s1 _ =>
      some (Suggestion.timeChange s1 (altTimesClaimed s1 ind.slots)
        "Conflict with another class")
    | _ => none))

lemma find?_of_filter_cons {α : Type} (p : α → Bool) : ∀ (l : List α) (r : α)
    (rest : List α), l.filter p = r :: rest → l.find? p = some r
  | [], r, rest => by
    intro h
    simp at h
  | x :: l, r, rest => by
    intro h
    rw [List.filter_cons] at h
    rw [List.find?_cons]
    cases hp : p x
    · rw [hp] at h
      simp only [Bool.false_eq_true, if_false] at h
      exact find?_of_filter_cons p l r rest h
    · rw [hp] at h
      simp only [if_true] at h
      exact congrArg some (List.cons.inj h).1

lemma filterMap_if {α β : Type} (p : α → Bool) (f : α → β) : ∀ l : List α,
    l.filterMap (fun x => if p x then none else some (f x)) =
      (l.filter (fun x => !(p x))).map f
  | [] => rfl
  | x :: l => by
    rw [List.filterMap_cons, List.filter_cons]
    cases hp : p x <;> simp [hp, filterMap_if p f l]

lemma findAlternativeTimes_eq_spec (slot : Slot) (allSlots : List Slot) :
    findAlternativeTimes slot allSlots = altTimesSpec slot allSlots := by
  rw [findAlternativeTimes, altTimesSpec, catalogTriples, List.filter_flatMap]
  congr 1
  refine List.flatMap_congr (fun d _ => ?_)
  rw [filterMap_if (fun ts => allSlots.any (fun s =>
      s.teacherId == slot.teacherId && s.dayOfWeek == d &&
        timeOverlap s.startTime s.endTime ts.1 ts.2))
    (fun ts => (d, ts.1, ts.2)) timeSlots, List.filter_map]
  rfl

/-- Counterexample for C8: with a ROOM_CONFLICT between two same-room,
different-teacher genes, the code also excludes the combination occupied
by the conflicting gene itself, while the claim ("any other gene of the
same teacher") would keep it; the produced suggestion lists differ. -/
theorem claim_C8_counterexample :
    generateSuggestions
        ⟨[⟨"c1", "T", "R", 1, 540, 630, 3⟩, ⟨"c2", "U", "R", 1, 540, 630, 3⟩],
         [Conflict.roomConflict ⟨"c1", "T", "R", 1, 540, 630, 3⟩
            ⟨"c2", "U", "R", 1, 540, 630, 3⟩], 0⟩
        [⟨"R", 30, "CLASSROOM"⟩] ≠
      suggestionsClaimed
        ⟨[⟨"c1", "T", "R", 1, 540, 630, 3⟩, ⟨"c2", "U", "R", 1, 540, 630, 3⟩],
         [Conflict.roomConflict ⟨"c1", "T", "R", 1, 540, 630, 3⟩
            ⟨"c2", "U", "R", 1, 540, 630, 3⟩], 0⟩
        [⟨"R", 30, "CLASSROOM"⟩] := by
  decide

/-- C8 (amended): the suggestion generator emits, per CAPACITY_EXCEEDED
conflict, a ROOM_CHANGE to the first CLASSROOM (stable order) with
capacity at least the course bound and nothing when none qualifies, and
per TEACHER_CONFLICT or ROOM_CONFLICT a TIME_CHANGE for the first gene of
the pair with at most 3 catalog (day, timeslot) combinations, in catalog
order, that overlap no gene of the same teacher in the individual
(including the conflicting gene itself). -/
theorem claim_C8_suggestions (ind : Individual) (rooms : List Room) :
    generateSuggestions ind rooms = suggestionsSpec ind rooms := by
  rw [generateSuggestions, suggestionsSpec]
  congr 1
  · refine List.filterMap_congr (fun c _ => ?_)
    match c with
    | Conflict.capacityExceeded slot course room =>
      simp only
      rcases hfil : List.filter
          (fun r => decide (course.maxStudents ≤ r.capacity) && r.roomType == "CLASSROOM")
          rooms with _ | ⟨r, rest⟩
      · rw [hfil]
        have hnone : rooms.find?
            (fun r => decide (course.maxStudents ≤ r.capacity) &&
              r.roomType == "CLASSROOM") = none := by
          rw [List.find?_eq_none]
          intro x hx
          have hq := List.filter_eq_nil_iff.mp hfil x hx
          simpa using hq
        rw [hnone]
        rfl
      · rw [hfil, find?_of_filter_cons _ rooms r rest hfil]
        rfl
    | Conflict.teacherConflict _ _ => rfl
    | Conflict.roomConflict _ _ => rfl
    | Conflict.existingConflict _ _ => rfl
    | Conflict.workloadExceeded _ _ _ => rfl
  · refine List.filterMap_congr (fun c _ => ?_)
    match c with
    | Conflict.teacherConflict s1 s2 =>
      simp only [findAlternativeTimes_eq_spec]
    | Conflict.roomConflict s1 s2 =>
      simp only [findAlternativeTimes_eq_spec]
    | Conflict.capacityExceeded _ _ _ => rfl
    | Conflict.existingConflict _ _ => rfl
    | Conflict.workloadExceeded _ _ _ => rfl

/-- C7: with any of the four collections empty, generation fails with the
error naming the (first such) empty category and logs FAILED, for every
randomness oracle alike (the genetic algorithm is never consulted, so no
partial timetable exists); validation succeeds exactly when all four
collections are nonempty, the existing-timetable list being no input to
it at all. -/
theorem claim_C7_empty_input_validation :
    (∀ (snap : Snapshot) (semester : Nat) (ay : String)
       (ich : Nat → Nat → SlotChoice) (orc : Nat → Nat → OffChoice),
      snap.students = [] →
      generateTimetable snap semester ay ich orc =
        ⟨Except.error "No students found", "FAILED"⟩) ∧
    (∀ (snap : Snapshot) (semester : Nat) (ay : String)
       (ich : Nat → Nat → SlotChoice) (orc : Nat → Nat → OffChoice),
      snap.students ≠ [] → snap.teachers = [] →
      generateTimetable snap semester ay ich orc =
        ⟨Except.error "No teachers found", "FAILED"⟩) ∧
    (∀ (snap : Snapshot) (semester : Nat) (ay : String)
       (ich : Nat → Nat → SlotChoice) (orc : Nat → Nat → OffChoice),
      snap.students ≠ [] → snap.teachers ≠ [] → snap.courses = [] →
      generateTimetable snap semester ay ich orc =
        ⟨Except.error "No courses found", "FAILED"⟩) ∧
    (∀ (snap : Snapshot) (semester : Nat) (ay : String)
       (ich : Nat → Nat → SlotChoice) (orc : Nat → Nat → OffChoice),
      snap.students ≠ [] → snap.teachers ≠ [] → snap.courses ≠ [] →
      snap.rooms = [] →
      generateTimetable snap semester ay ich orc =
        ⟨Except.error "No rooms found", "FAILED"⟩) ∧
    (∀ (students : List Student) (ts : List Teacher) (cs : List Course)
       (rs : List Room),
      validateInputs students ts cs rs = Except.ok () ↔
        students ≠ [] ∧ ts ≠ [] ∧ cs ≠ [] ∧ rs ≠ []) := by
  refine ⟨?_, ?_, ?_, ?_, ?_⟩
  · intro snap semester ay ich orc h
    rw [generateTimetable, validateInputs]
    simp [h]
  · intro snap semester ay ich orc h1 h2
    rw [generateTimetable, validateInputs]
    simp [h1, h2, List.length_eq_zero]
  · intro snap semester ay ich orc h1 h2 h3
    rw [generateTimetable, validateInputs]
    simp [h1, h2, h3, List.length_eq_zero]
  · intro snap semester ay ich orc h1 h2 h3 h4
    rw [generateTimetable, validateInputs]
    simp [h1, h2, h3, h4, List.length_eq_zero]
  · intro students ts cs rs
    rw [validateInputs]
    constructor
    · intro h
      by_cases h1 : students.length = 0 <;> by_cases h2 : ts.length = 0 <;>
        by_cases h3 : cs.length = 0 <;> by_cases h4 : rs.length = 0 <;>
        simp [h1, h2, h3, h4, List.length_eq_zero] at h ⊢ <;>
        simp_all [List.length_eq_zero, ← List.length_eq_zero]
    · rintro ⟨h1, h2, h3, h4⟩
      simp [List.length_eq_zero, h1, h2, h3, h4]

/-- Witness for C7: an empty student list alone aborts with the student
error and a FAILED log; a nonempty student list with no teachers aborts
with the teacher error; the all-nonempty single-entity snapshot
validates. -/
theorem claim_C7_empty_input_validation_witness :
    generateTimetable ⟨[], [⟨"T", 40⟩], [⟨"c1", "T", 3, 0⟩], [⟨"R", 30, "CLASSROOM"⟩], []⟩
        3 "2024-25" (fun _ _ => ⟨0, 0, 0⟩)
        (fun _ _ => ⟨[], [], fun _ => true, fun _ => none⟩) =
      ⟨Except.error "No students found", "FAILED"⟩ ∧
    generateTimetable ⟨[⟨"st"⟩], [], [⟨"c1", "T", 3, 0⟩], [⟨"R", 30, "CLASSROOM"⟩], []⟩
        3 "2024-25" (fun _ _ => ⟨0, 0, 0⟩)
        (fun _ _ => ⟨[], [], fun _ => true, fun _ => none⟩) =
      ⟨Except.error "No teachers found", "FAILED"⟩ ∧
    validateInputs [⟨"st"⟩] [⟨"T", 40⟩] [⟨"c1", "T", 3, 0⟩] [⟨"R", 30, "CLASSROOM"⟩] =
      Except.ok () := by
  refine ⟨?_, ?_, ?_⟩
  · exact claim_C7_empty_input_validation.1 _ 3 "2024-25" _ _ rfl
  · exact claim_C7_empty_input_validation.2.1 _ 3 "2024-25" _ _ (by simp) rfl
  · exact (claim_C7_empty_input_validation.2.2.2.2 _ _ _ _).mpr
      ⟨by simp, by simp, by simp, by simp⟩

lemma sortPop_perm (pop : List Individual) : List.Perm (sortPop pop) pop :=
  List.perm_insertionSort fitGE pop

lemma headI_mem_self {l : List Individual} (h : l ≠ []) : l.headI ∈ l := by
  rcases l with _ | ⟨x, t⟩
  · exact absurd rfl h
  · exact List.mem_cons_self x t

lemma sortPop_sorted (pop : List Individual) : List.Sorted fitGE (sortPop pop) :=
  List.sorted_insertionSort fitGE pop

/-- The best evaluated fitness of a population under a snapshot. -/
def evalBest (snap : Snapshot) (pop : List Individual) : ℚ :=
  ((pop.map (evaluate snap)).map Individual.fitness).foldr max 0

lemma le_foldr_max : ∀ (l : List ℚ) (x : ℚ), x ∈ l → x ≤ l.foldr max 0
  | [], x => by simp
  | y :: l, x => by
    intro hx
    rcases List.mem_cons.mp hx with rfl | hx
    · exact le_max_left _ _
    · exact (le_foldr_max l x hx).trans (le_max_right _ _)

lemma foldr_max_le : ∀ (l : List ℚ) (b : ℚ), 0 ≤ b → (∀ x ∈ l, x ≤ b) →
    l.foldr max 0 ≤ b
  | [], b => by
    intro hb _
    simpa
  | y :: l, b => by
    intro hb h
    simp only [List.foldr_cons]
    exact max_le (h y (by simp))
      (foldr_max_le l b hb (fun x hx => h x (List.mem_cons_of_mem _ hx)))

lemma calculateFitness_fst_nonneg (slots : List Slot) (ts : List Teacher)
    (cs : List Course) (rs : List Room) (ex : List TEntry) :
    0 ≤ (calculateFitness slots ts cs rs ex).1 := by
  rw [calculateFitness]
  exact le_max_left 0 _

lemma evaluate_fitness_nonneg (snap : Snapshot) (ind : Individual) :
    0 ≤ (evaluate snap ind).fitness :=
  calculateFitness_fst_nonneg ind.slots snap.teachers snap.courses snap.rooms
    snap.existingTimetables

lemma evaluate_evaluate (snap : Snapshot) (ind : Individual) :
    (evaluate snap (evaluate snap ind)).fitness = (evaluate snap ind).fitness := rfl

lemma sorted_head_ge (pop : List Individual) :
    ∀ x ∈ pop, x.fitness ≤ (sortPop pop).headI.fitness := by
  intro x hx
  have hx' : x ∈ sortPop pop := (sortPop_perm pop).mem_iff.mpr hx
  have hsorted := sortPop_sorted pop
  rcases hsp : sortPop pop with _ | ⟨h0, t⟩
  · rw [hsp] at hx'
    exact absurd hx' (by simp)
  · rw [hsp] at hx' hsorted
    rw [List.headI]
    rcases List.mem_cons.mp hx' with rfl | hxt
    · exact le_refl _
    · exact List.rel_of_sorted_cons hsorted x hxt

lemma sortPop_map_ne (snap : Snapshot) (pop : List Individual) (h : pop ≠ []) :
    sortPop (pop.map (evaluate snap)) ≠ [] := by
  intro hc
  have hlen := (sortPop_perm (pop.map (evaluate snap))).length_eq
  rw [hc] at hlen
  simp only [List.length_nil, List.length_map] at hlen
  exact h (List.length_eq_zero.mp hlen.symm)

lemma sortedHead_fitness_nonneg (snap : Snapshot) (pop : List Individual)
    (h : pop ≠ []) :
    0 ≤ (sortPop (pop.map (evaluate snap))).headI.fitness := by
  have hne := sortPop_map_ne snap pop h
  have hmem : (sortPop (pop.map (evaluate snap))).headI ∈ sortPop (pop.map (evaluate snap)) :=
    headI_mem_self hne
  have hmem2 : (sortPop (pop.map (evaluate snap))).headI ∈ pop.map (evaluate snap) :=
    (sortPop_perm (pop.map (evaluate snap))).mem_iff.mp hmem
  rcases List.mem_map.mp hmem2 with ⟨y, -, hy⟩
  rw [← hy]
  exact evaluate_fitness_nonneg snap y

lemma evalBest_eq_sortedHead (snap : Snapshot) (pop : List Individual) (h : pop ≠ []) :
    evalBest snap pop = (sortPop (pop.map (evaluate snap))).headI.fitness := by
  apply le_antisymm
  · refine foldr_max_le _ _ (sortedHead_fitness_nonneg snap pop h) ?_
    intro x hx
    rcases List.mem_map.mp hx with ⟨y, hy, rfl⟩
    exact sorted_head_ge (pop.map (evaluate snap)) y hy
  · apply le_foldr_max
    have hne := sortPop_map_ne snap pop h
    have hmem : (sortPop (pop.map (evaluate snap))).headI ∈ pop.map (evaluate snap) :=
      (sortPop_perm (pop.map (evaluate snap))).mem_iff.mp (headI_mem_self hne)
    exact List.mem_map_of_mem Individual.fitness hmem

lemma nextPopulation_headI (sorted off : List Individual) (h : sorted ≠ []) :
    nextPopulation sorted off ≠ [] ∧
      (nextPopulation sorted off).headI = sorted.headI := by
  rcases sorted with _ | ⟨h0, t⟩
  · exact absurd rfl h
  · rw [nextPopulation, eliteCount_eq]
    exact ⟨by simp, rfl⟩

/-- The central elitism fact: the evaluated sorted head of the current
generation survives into the next population and re-evaluates to the same
fitness, so the best evaluated fitness cannot decrease. -/
lemma evalBest_le_next (snap : Snapshot) (pop off : List Individual) (h : pop ≠ []) :
    evalBest snap pop ≤
      evalBest snap (nextPopulation (sortPop (pop.map (evaluate snap))) off) := by
  have hne := sortPop_map_ne snap pop h
  set sorted := sortPop (pop.map (evaluate snap)) with hsorted
  obtain ⟨hnext_ne, hnext_head⟩ := nextPopulation_headI sorted off hne
  have hmem_sorted : sorted.headI ∈ sorted := headI_mem_self hne
  have hmem_next : sorted.headI ∈ nextPopulation sorted off := by
    rw [← hnext_head]
    exact headI_mem_self hnext_ne
  have hmem_eval : sorted.headI ∈ pop.map (evaluate snap) :=
    (sortPop_perm (pop.map (evaluate snap))).mem_iff.mp hmem_sorted
  rcases List.mem_map.mp hmem_eval with ⟨y, -, hy⟩
  have hfit : (evaluate snap sorted.headI).fitness = sorted.headI.fitness := by
    rw [← hy, evaluate_evaluate]
  rw [evalBest_eq_sortedHead snap pop h]
  calc sorted.headI.fitness = (evaluate snap sorted.headI).fitness := hfit.symm
    _ ≤ _ := by
        apply le_foldr_max
        exact List.mem_map_of_mem Individual.fitness
          (List.mem_map_of_mem (evaluate snap) hmem_next)

/-- C10: the elite count is floor(50 * 0.2) = 10, re-evaluating an
unchanged individual against the same snapshot yields the same fitness,
and the best evaluated fitness never decreases from one generation to the
next population (elites carried unchanged ahead of any offspring). -/
theorem claim_C10_monotone_best :
    eliteCount = 10 ∧
    (∀ (snap : Snapshot) (ind : Individual),
      (evaluate snap (evaluate snap ind)).fitness = (evaluate snap ind).fitness) ∧
    (∀ (snap : Snapshot) (pop off : List Individual), pop ≠ [] →
      evalBest snap pop ≤
        evalBest snap (nextPopulation (sortPop (pop.map (evaluate snap))) off)) :=
  ⟨eliteCount_eq, evaluate_evaluate, evalBest_le_next⟩

/-- Witness for C10 at a one-individual population: the next population
built from an empty offspring list keeps the best evaluated fitness. -/
theorem claim_C10_monotone_best_witness :
    evalBest ⟨[⟨"st"⟩], [⟨"T", 40⟩], [⟨"c1", "T", 3, 0⟩], [⟨"R", 30, "CLASSROOM"⟩], []⟩
      [⟨[⟨"c1", "T", "R", 1, 540, 630, 3⟩], [], 0⟩] ≤
    evalBest ⟨[⟨"st"⟩], [⟨"T", 40⟩], [⟨"c1", "T", 3, 0⟩], [⟨"R", 30, "CLASSROOM"⟩], []⟩
      (nextPopulation
        (sortPop ([⟨[⟨"c1", "T", "R", 1, 540, 630, 3⟩], [], 0⟩].map
          (evaluate ⟨[⟨"st"⟩], [⟨"T", 40⟩], [⟨"c1", "T", 3, 0⟩],
            [⟨"R", 30, "CLASSROOM"⟩], []⟩))) []) :=
  claim_C10_monotone_best.2.2 _ _ [] (by simp)

lemma gaGens_le (snap : Snapshot) (orc : Nat → Nat → OffChoice) :
    ∀ (fuel : Nat) (pop : List Individual), gaGens snap orc fuel pop ≤ fuel
  | 0, pop => by simp [gaGens]
  | Nat.succ fuel, pop => by
    simp only [gaGens]
    split
    · omega
    · split
      · omega
      · rename_i off hoff
        have h := gaGens_le snap orc fuel
          (nextPopulation (sortPop (pop.map (evaluate snap))) off)
        omega

lemma gaLoop_early (snap : Snapshot) (orc : Nat → Nat → OffChoice) (fuel : Nat)
    (pop : List Individual)
    (h : conflictThreshold ≤ (sortPop (pop.map (evaluate snap))).headI.fitness) :
    gaLoop snap orc (fuel + 1) pop = some (sortPop (pop.map (evaluate snap))) := by
  simp only [gaLoop]
  rw [if_pos h]

lemma gaLoop_best (snap : Snapshot) (orc : Nat → Nat → OffChoice) :
    ∀ (fuel : Nat) (pop final : List Individual), pop ≠ [] →
    gaLoop snap orc (fuel + 1) pop = some final →
    final ≠ [] ∧ evalBest snap pop ≤ final.headI.fitness
  | 0, pop, final => by
    intro hpop h
    simp only [gaLoop] at h
    by_cases hth : conflictThreshold ≤ (sortPop (pop.map (evaluate snap))).headI.fitness
    · rw [if_pos hth] at h
      cases h
      exact ⟨sortPop_map_ne snap pop hpop,
        le_of_eq (evalBest_eq_sortedHead snap pop hpop)⟩
    · rw [if_neg hth] at h
      split at h
      · exact absurd h (by simp)
      · rename_i off hoff
        cases h
        obtain ⟨hne, hhead⟩ :=
          nextPopulation_headI _ off (sortPop_map_ne snap pop hpop)
        refine ⟨hne, ?_⟩
        rw [hhead]
        exact le_of_eq (evalBest_eq_sortedHead snap pop hpop)
  | Nat.succ fuel, pop, final => by
    intro hpop h
    simp only [gaLoop] at h
    by_cases hth : conflictThreshold ≤ (sortPop (pop.map (evaluate snap))).headI.fitness
    · rw [if_pos hth] at h
      cases h
      exact ⟨sortPop_map_ne snap pop hpop,
        le_of_eq (evalBest_eq_sortedHead snap pop hpop)⟩
    · rw [if_neg hth] at h
      split at h
      · exact absurd h (by simp)
      · rename_i off hoff
        have hnext_ne : nextPopulation (sortPop (pop.map (evaluate snap))) off ≠ [] :=
          (nextPopulation_headI _ off (sortPop_map_ne snap pop hpop)).1
        obtain ⟨hfin_ne, hle⟩ := gaLoop_best snap orc fuel
          (nextPopulation (sortPop (pop.map (evaluate snap))) off) final hnext_ne h
        exact ⟨hfin_ne, le_trans (evalBest_le_next snap pop off hpop) hle⟩

/-- C4: the driver executes at most 100 generations; when the sorted top
individual reaches the threshold (default 0.8) the loop stops there and
returns that sorted generation; whenever the loop returns a population
from a nonempty start, its first individual scores at least the best
evaluated fitness of the starting generation (so the formatted result is
the best individual found, also when the budget runs out); and the
algorithm's result is the formatted first individual of the final
population, carrying its recorded conflicts and fitness. -/
theorem claim_C4_driver :
    (∀ (snap : Snapshot) (orc : Nat → Nat → OffChoice) (pop : List Individual),
      gaGens snap orc generations pop ≤ 100) ∧
    (∀ (snap : Snapshot) (orc : Nat → Nat → OffChoice) (fuel : Nat)
       (pop : List Individual),
      conflictThreshold ≤ (sortPop (pop.map (evaluate snap))).headI.fitness →
      gaLoop snap orc (fuel + 1) pop = some (sortPop (pop.map (evaluate snap)))) ∧
    (∀ (snap : Snapshot) (orc : Nat → Nat → OffChoice) (fuel : Nat)
       (pop final : List Individual), pop ≠ [] →
      gaLoop snap orc (fuel + 1) pop = some final →
      final ≠ [] ∧ evalBest snap pop ≤ final.headI.fitness) ∧
    (∀ (snap : Snapshot) (semester : Nat) (ay : String)
       (ich : Nat → Nat → SlotChoice) (orc : Nat → Nat → OffChoice) (tt : Timetable),
      geneticAlgorithm snap semester ay ich orc = some tt →
      ∃ pop0 finalPop, initializePopulation populationSize snap ich = some pop0 ∧
        gaLoop snap orc generations pop0 = some finalPop ∧
        tt = formatTimetable finalPop.headI snap semester ay) ∧
    (∀ (ind : Individual) (snap : Snapshot) (semester : Nat) (ay : String),
      (formatTimetable ind snap semester ay).conflicts = ind.conflicts ∧
      (formatTimetable ind snap semester ay).fitness = ind.fitness) := by
  refine ⟨?_, gaLoop_early, gaLoop_best, ?_, ?_⟩
  · intro snap orc pop
    exact le_trans (gaGens_le snap orc generations pop) (by rw [generations])
  · intro snap semester ay ich orc tt h
    rw [geneticAlgorithm] at h
    split at h
    · exact absurd h (by simp)
    · rename_i pop0 hpop0
      split at h
      · exact absurd h (by simp)
      · rename_i finalPop hfinal
        cases h
        exact ⟨pop0, finalPop, hpop0, hfinal, rfl⟩
  · intro ind snap semester ay
    exact ⟨rfl, rfl⟩

/-- The one-course snapshot used by the C4 witness. -/
def witnessSnap : Snapshot :=
  ⟨[⟨"st"⟩], [⟨"T", 40⟩], [⟨"c1", "T", 3, 0⟩], [⟨"R", 30, "CLASSROOM"⟩], []⟩

/-- The conflict-free individual used by the C4 witness. -/
def witnessInd : Individual := ⟨[⟨"c1", "T", "R", 1, 540, 630, 3⟩], [], 0⟩

/-- A constant initialization choice stream for the C4 witness. -/
def witnessIch : Nat → Nat → SlotChoice := fun _ _ => ⟨0, 0, 0⟩

/-- A constant breeding choice stream for the C4 witness. -/
def witnessOrc : Nat → Nat → OffChoice := fun _ _ => ⟨[], [], fun _ => true, fun _ => none⟩

/-- Witness for C4: on a one-course snapshot the generation counter stays
within budget, the first generation already converges (fitness 1 at
threshold 0.8) and is returned sorted, the returned population's head
carries at least the best fitness of the start population, and the
complete algorithm returns the formatted best individual. -/
theorem claim_C4_driver_witness :
    gaGens witnessSnap witnessOrc generations [witnessInd] ≤ 100 ∧
    gaLoop witnessSnap witnessOrc 1 [witnessInd] =
      some (sortPop ([witnessInd].map (evaluate witnessSnap))) ∧
    (sortPop ([witnessInd].map (evaluate witnessSnap)) ≠ [] ∧
      evalBest witnessSnap [witnessInd] ≤
        (sortPop ([witnessInd].map (evaluate witnessSnap))).headI.fitness) ∧
    (∃ pop0 finalPop,
      initializePopulation populationSize witnessSnap witnessIch = some pop0 ∧
      gaLoop witnessSnap witnessOrc generations pop0 = some finalPop ∧
      (⟨3, "2024-25",
        [⟨"c1", "T", "R", 1, 540, 630,
          some ⟨"c1", "T", 3, 0⟩, some ⟨"T", 40⟩, some ⟨"R", 30, "CLASSROOM"⟩⟩],
        [], [], 1⟩ : Timetable) =
        formatTimetable finalPop.headI witnessSnap 3 "2024-25") := by
  have hth : conflictThreshold ≤
      (sortPop ([witnessInd].map (evaluate witnessSnap))).headI.fitness := by
    with_unfolding_all decide
  have h2 := claim_C4_driver.2.1 witnessSnap witnessOrc 0 [witnessInd] hth
  refine ⟨claim_C4_driver.1 witnessSnap witnessOrc [witnessInd], h2, ?_, ?_⟩
  · exact claim_C4_driver.2.2.1 witnessSnap witnessOrc 0 [witnessInd] _ (by simp) h2
  · exact claim_C4_driver.2.2.2.1 witnessSnap 3 "2024-25" witnessIch witnessOrc
      ⟨3, "2024-25",
        [⟨"c1", "T", "R", 1, 540, 630,
          some ⟨"c1", "T", 3, 0⟩, some ⟨"T", 40⟩, some ⟨"R", 30, "CLASSROOM"⟩⟩],
        [], [], 1⟩
      (by with_unfolding_all rfl)

end AITimetable